import Mathlib

/-!
# Process supervisor (`ssp.c`): embedding and verified properties

The supervisor keeps two arrays of `struct ssp_process` in global variables:
`ssp_processes` (processes it created) and `ssp_orphans` (children it reaped
without having created them).  Each array is represented here by the list of
its slots `0 .. count-1`, so that `ssp_process_count` and `ssp_orphans_count`
are the lengths of the two lists; the capacities `maxSize` and
`maxSizeOrphans` are kept as fields.

The operating system is represented by the answers it gives: every function
takes the results of the system calls it may make (`waitpid`, `kill`, `fork`,
`realloc`) as arguments, and reports the calls it really made in the `calls`
component of its outcome.  A function that calls `exit` yields `Outcome.exit`.

Modelling conventions.
* C `int` and `pid_t` values are integers; counts and string lengths are
  taken to stay below `2^31`, so no `int` arithmetic of the source wraps.
* `strdup` is taken to succeed (the source never tests its result).
* A name is the content of the C string, one `Char` per C `char`.
* `handle_signal` is run between the calls of the API, never inside one.
* The wait-status macros and the constants `SIGCHLD`, `WNOHANG`, `ECHILD`,
  `ESRCH` are the ones of Linux/glibc, the platform the source is written for
  (`prctl`, `/proc/self/fd`).
-/

namespace SSP

/-! ## Constants -/

/-- `#define INITIAL_SIZE 10`. -/
def INITIAL_SIZE : Int := 10

/-- Linux signal number of `SIGCHLD`. -/
def SIGCHLD : Int := 17

/-- Linux value of the `waitpid` option `WNOHANG`. -/
def WNOHANG : Int := 1

/-- Linux `errno` value `ECHILD`. -/
def ECHILD : Int := 10

/-- Linux `errno` value `ESRCH`. -/
def ESRCH : Int := 3

/-! ## Wait-status macros of `<sys/wait.h>` (glibc) -/

/-- `WTERMSIG(status)` is `status & 0x7f`. -/
def WTERMSIG (status : Nat) : Nat := status &&& 0x7f

/-- `WEXITSTATUS(status)` is `(status & 0xff00) >> 8`. -/
def WEXITSTATUS (status : Nat) : Nat := (status &&& 0xff00) >>> 8

/-- `WIFEXITED(status)` is `WTERMSIG(status) == 0`. -/
def WIFEXITED (status : Nat) : Bool := WTERMSIG status == 0

/-- The conversion `(signed char) n` of a non-negative `int`. -/
def toSignedChar (n : Nat) : Int :=
  if n % 256 < 128 then (n % 256 : Nat) else ((n % 256 : Nat) : Int) - 256

/-- `WIFSIGNALED(status)` is `((signed char) ((status & 0x7f) + 1) >> 1) > 0`. -/
def WIFSIGNALED (status : Nat) : Bool :=
  decide (toSignedChar ((status &&& 0x7f) + 1) / 2 > 0)

/-! ## Data -/

/-- `struct ssp_process`. -/
structure ssp_process where
  status : Int
  ssp_pid : Int
  pid : Int
  name : String
deriving DecidableEq, Repr

/-- The global variables of `ssp.c`. -/
structure State where
  ssp_processes : List ssp_process
  maxSize : Int
  ssp_orphans : List ssp_process
  maxSizeOrphans : Int
deriving DecidableEq, Repr

/-- The global `ssp_process_count`. -/
def State.ssp_process_count (s : State) : Int := s.ssp_processes.length

/-- The global `ssp_orphans_count`. -/
def State.ssp_orphans_count (s : State) : Int := s.ssp_orphans.length

/-- A system call made by the supervisor. -/
inductive Syscall where
  | waitpid (pid : Int) (options : Int)
  | kill (pid : Int) (sig : Int)
  | fork
  | realloc (nmemb : Int)
deriving DecidableEq, Repr

/-- How a call of one of the supervisor's functions ends: it returns `val`
leaving the globals as `st` after making the system calls `calls`; or it
terminates the process through `exit (err)`; or (in the child side of `fork`)
the process image is replaced by `execvp`; or the operating system gave no
(further) answer, so the call has not returned: a blocking `waitpid` that never
completes. -/
inductive Outcome (α : Type) where
  | ret (val : α) (st : State) (calls : List Syscall)
  | exit (err : Int)
  | exec
  | pending
deriving DecidableEq, Repr

/-- What `waitpid (pid, &status, options)` answers: its return value, the
value it stores in `status` and the `errno` it leaves. -/
structure WaitAnswer where
  result : Int
  wstatus : Nat
  errno : Int
deriving DecidableEq, Repr

/-- What `realloc` answers: a block, or `NULL` with an `errno`. -/
inductive AllocAnswer where
  | block
  | null (errno : Int)
deriving DecidableEq, Repr

/-- The statement repeated after every successful `waitpid`:
`if (WIFEXITED(status)) x = WEXITSTATUS(status);
 else if (WIFSIGNALED(status)) x = WTERMSIG(status) + 128;`
where `old` is the value `x` had. -/
def resolve (wstatus : Nat) (old : Int) : Int :=
  if WIFEXITED wstatus then (WEXITSTATUS wstatus : Int)
  else if WIFSIGNALED wstatus then (WTERMSIG wstatus : Int) + 128
  else old

/-- What a system call that returns `-1` on failure answers (`fork`, `kill`,
`prctl`, `sigaction`, `dup2`, `closedir`): the return value and `errno`. -/
structure SysAnswer where
  result : Int
  errno : Int
deriving DecidableEq, Repr

/-! ## `ssp_init` -/

/-- The globals as their initialisers leave them, before `ssp_init`. -/
def initial_globals : State :=
  { ssp_processes := [], maxSize := INITIAL_SIZE,
    ssp_orphans := [], maxSizeOrphans := INITIAL_SIZE }

/-- Answers of the operating system to `ssp_init`. -/
structure InitEnv where
  malloc_processes : AllocAnswer
  malloc_orphans : AllocAnswer
  prctl : SysAnswer
  sigaction : SysAnswer
deriving DecidableEq, Repr

/-- `register_signal`: installs the handler, `exit (errno)` if `sigaction`
fails. -/
def register_signal (s : State) (sigaction : SysAnswer) : Outcome Unit :=
  if sigaction.result = -1 then Outcome.exit sigaction.errno
  else Outcome.ret () s []

/-- `ssp_init`: allocates the two arrays, becomes a subreaper, sets both
counts to zero and registers the `SIGCHLD` handler. -/
def ssp_init (s : State) (env : InitEnv) : Outcome Unit :=
  match env.malloc_processes with
  | AllocAnswer.null err => Outcome.exit err
  | AllocAnswer.block =>
    match env.malloc_orphans with
    | AllocAnswer.null err => Outcome.exit err
    | AllocAnswer.block =>
      if env.prctl.result = -1 then Outcome.exit env.prctl.errno
      else
        register_signal { s with ssp_processes := [], ssp_orphans := [] } env.sigaction

/-! ## `ssp_create` -/

/-- Answers of the operating system inside the child of `fork`. -/
structure ChildEnv where
  dup2_0 : SysAnswer
  dup2_1 : SysAnswer
  dup2_2 : SysAnswer
  opendir : AllocAnswer
  closedir : SysAnswer
  execvp : Option Int
deriving DecidableEq, Repr

/-- Answers of the operating system to `ssp_create`. -/
structure CreateEnv where
  realloc : AllocAnswer
  fork : SysAnswer
  child : ChildEnv
deriving DecidableEq, Repr

/-- The branch `if (pid == 0)` of `ssp_create`, run in the child: it
redirects the standard streams, closes the other descriptors and calls
`execvp`; every failure is an `exit (errno)`. It never returns. -/
def child_side (c : ChildEnv) : Outcome Int :=
  if c.dup2_0.result = -1 then Outcome.exit c.dup2_0.errno
  else if c.dup2_1.result = -1 then Outcome.exit c.dup2_1.errno
  else if c.dup2_2.result = -1 then Outcome.exit c.dup2_2.errno
  else
    match c.opendir with
    | AllocAnswer.null err => Outcome.exit err
    | AllocAnswer.block =>
      if c.closedir.result = -1 then Outcome.exit c.closedir.errno
      else
        match c.execvp with
        | none => Outcome.exec
        | some err => Outcome.exit err

/-- The part of `ssp_create` from `fork ()` on, with the capacity already
settled and `calls` made so far. -/
def ssp_create_fork (s : State) (argv0 : String) (env : CreateEnv)
    (calls : List Syscall) : Outcome Int :=
  if env.fork.result = -1 then Outcome.exit env.fork.errno
  else if env.fork.result = 0 then child_side env.child
  else
    Outcome.ret s.ssp_process_count
      { s with ssp_processes := s.ssp_processes ++
          [{ status := -1, pid := env.fork.result,
             ssp_pid := s.ssp_process_count, name := argv0 }] }
      (calls ++ [Syscall.fork])

/-- `ssp_create (argv, fd0, fd1, fd2)`, where `argv0` is `argv[0]`. -/
def ssp_create (s : State) (argv0 : String) (env : CreateEnv) : Outcome Int :=
  if s.ssp_process_count = s.maxSize then
    match env.realloc with
    | AllocAnswer.null err => Outcome.exit err
    | AllocAnswer.block =>
      ssp_create_fork { s with maxSize := s.maxSize * 2 } argv0 env
        [Syscall.realloc (s.maxSize * 2)]
  else ssp_create_fork s argv0 env []

/-! ## `ssp_get_status` -/

/-- The index check `ssp_id < 0 || ssp_id >= ssp_process_count`. -/
def invalid_id (s : State) (ssp_id : Int) : Prop :=
  ssp_id < 0 ∨ ssp_id ≥ s.ssp_process_count

instance (s : State) (ssp_id : Int) : Decidable (invalid_id s ssp_id) := by
  unfold invalid_id; infer_instance

/-- The record `ssp_processes[ssp_id]` of a valid id. -/
def proc_at (s : State) (ssp_id : Int) (h : ¬ invalid_id s ssp_id) : ssp_process :=
  s.ssp_processes.get ⟨ssp_id.toNat, by
    unfold invalid_id State.ssp_process_count at h
    omega⟩

/-- The assignment `ssp_processes[i].status = v`. -/
def set_status (ps : List ssp_process) (i : Nat) (v : Int) : List ssp_process :=
  ps.modify (fun p => { p with status := v }) i

/-- `ssp_get_status (ssp_id)`; `a` is the answer of
`waitpid (proc->pid, &status, WNOHANG)`, used only if that call is made. -/
def ssp_get_status (s : State) (ssp_id : Int) (a : WaitAnswer) : Outcome Int :=
  if h : invalid_id s ssp_id then Outcome.ret (-2) s []
  else
    let proc := proc_at s ssp_id h
    if proc.status ≠ -1 then Outcome.ret proc.status s []
    else if a.result = 0 then
      Outcome.ret (-1) s [Syscall.waitpid proc.pid WNOHANG]
    else if a.result = -1 then Outcome.exit a.errno
    else
      Outcome.ret (resolve a.wstatus proc.status)
        { s with ssp_processes :=
            set_status s.ssp_processes ssp_id.toNat (resolve a.wstatus proc.status) }
        [Syscall.waitpid proc.pid WNOHANG]

/-! ## `ssp_send_signal` -/

/-- `ssp_send_signal (ssp_id, signum)`; `k` is the answer of
`kill (proc->pid, signum)`, used only if that call is made. -/
def ssp_send_signal (s : State) (ssp_id signum : Int) (k : SysAnswer) : Outcome Unit :=
  if h : invalid_id s ssp_id then Outcome.ret () s []
  else
    let proc := proc_at s ssp_id h
    if proc.status ≠ -1 then Outcome.ret () s []
    else if k.result = -1 then
      if k.errno = ESRCH then Outcome.ret () s [Syscall.kill proc.pid signum]
      else Outcome.exit k.errno
    else Outcome.ret () s [Syscall.kill proc.pid signum]

/-! ## `ssp_wait` -/

/-- The loop `for (i = 0; i < ssp_process_count; i++)` of `ssp_wait` over
the records from the current index on; `answers` are the answers of the
successive calls `waitpid (proc->pid, &status, 0)`. The result is the records
as the loop leaves them and the calls it made; `Outcome.pending` when a
`waitpid` gets no answer. -/
def wait_loop : List ssp_process → List WaitAnswer →
    Except (Outcome Unit) (List ssp_process × List Syscall)
  | [], _ => Except.ok ([], [])
  | proc :: rest, answers =>
    if proc.status = -1 then
      match answers with
      | [] => Except.error Outcome.pending
      | a :: more =>
        if a.result = -1 then Except.error (Outcome.exit a.errno)
        else
          match wait_loop rest more with
          | Except.error e => Except.error e
          | Except.ok (rest', calls) =>
            Except.ok ({ proc with status := resolve a.wstatus proc.status } :: rest',
              Syscall.waitpid proc.pid 0 :: calls)
    else
      match wait_loop rest answers with
      | Except.error e => Except.error e
      | Except.ok (rest', calls) => Except.ok (proc :: rest', calls)

/-- `ssp_wait ()`. -/
def ssp_wait (s : State) (answers : List WaitAnswer) : Outcome Unit :=
  match wait_loop s.ssp_processes answers with
  | Except.error e => e
  | Except.ok (ps, calls) => Outcome.ret () { s with ssp_processes := ps } calls

/-! ## `handle_signal` -/

/-- Answers of the operating system to one turn of the loop of
`handle_signal`: the answer of `waitpid (-1, &status, WNOHANG)`, the answer of
`realloc` (used only if the orphan array is grown) and the value found in the
`status` field of the slot `ssp_orphans[ssp_orphans_count]`, which no one has
written yet. -/
structure ReapAnswer where
  wait : WaitAnswer
  realloc : AllocAnswer
  slot_status : Int
deriving DecidableEq, Repr

/-- The loop `for (i = 0; i < ssp_process_count; i++)` of `handle_signal`
over the records from the current index on: the first record whose `pid` is
`result` gets its status resolved and the loop stops. The result is `found`
and the records as the loop leaves them. -/
def scan_tracked (result : Int) (wstatus : Nat) :
    List ssp_process → Bool × List ssp_process
  | [] => (false, [])
  | proc :: rest =>
    if proc.pid = result then
      (true, { proc with status := resolve wstatus proc.status } :: rest)
    else ((scan_tracked result wstatus rest).1, proc :: (scan_tracked result wstatus rest).2)

/-- The branch `if (!found)` of `handle_signal`: grows the orphan array if it
is full and appends the record of the reaped child. -/
def add_orphan (s : State) (a : ReapAnswer) : Outcome Unit :=
  let record : ssp_process :=
    { pid := a.wait.result, ssp_pid := s.ssp_orphans_count, name := "<unknown>",
      status := resolve a.wait.wstatus a.slot_status }
  if s.ssp_orphans_count = s.maxSizeOrphans then
    match a.realloc with
    | AllocAnswer.null err => Outcome.exit err
    | AllocAnswer.block =>
      Outcome.ret ()
        { s with maxSizeOrphans := s.maxSizeOrphans * 2,
                 ssp_orphans := s.ssp_orphans ++ [record] }
        [Syscall.realloc (s.maxSizeOrphans * 2)]
  else Outcome.ret () { s with ssp_orphans := s.ssp_orphans ++ [record] } []

/-- The body of the `while` loop of `handle_signal`, for a `waitpid` that
returned `a.wait.result > 0`. -/
def reap_child (s : State) (a : ReapAnswer) : Outcome Unit :=
  if (scan_tracked a.wait.result a.wait.wstatus s.ssp_processes).1 then
    Outcome.ret ()
      { s with ssp_processes :=
          (scan_tracked a.wait.result a.wait.wstatus s.ssp_processes).2 } []
  else add_orphan s a

/-- The loop `while ((result = waitpid (-1, &status, WNOHANG)) > 0)` of
`handle_signal` and the test that follows it; `calls` are the calls made so
far and `answers` the answers to the turns still to come. -/
def drain (s : State) (calls : List Syscall) : List ReapAnswer → Outcome Unit
  | [] => Outcome.pending
  | a :: more =>
    if a.wait.result > 0 then
      match reap_child s a with
      | Outcome.ret _ s' made =>
        drain s' (calls ++ [Syscall.waitpid (-1) WNOHANG] ++ made) more
      | other => other
    else if a.wait.result = -1 ∧ a.wait.errno ≠ ECHILD then Outcome.exit a.wait.errno
    else Outcome.ret () s (calls ++ [Syscall.waitpid (-1) WNOHANG])

/-- `handle_signal (signum)`. -/
def handle_signal (s : State) (signum : Int) (answers : List ReapAnswer) : Outcome Unit :=
  if signum = SIGCHLD then drain s [] answers else Outcome.ret () s []

/-! ## `ssp_print` -/

/-- `strlen`. -/
def strlen (str : String) : Nat := str.length

/-- The conversion `%Ns` of `printf`: `str` right-aligned in `width` columns. -/
def fmt_right (width : Nat) (str : String) : String :=
  String.mk (List.replicate (width - strlen str) ' ') ++ str

/-- The conversion `%-*s` of `printf` with a non-negative width argument:
`str` left-aligned in `width` columns. -/
def fmt_left (width : Nat) (str : String) : String :=
  str ++ String.mk (List.replicate (width - strlen str) ' ')

/-- The conversion `%d` of `printf`. -/
def fmt_d (n : Int) : String := toString n

/-- The loops `for ... if (len > max_len) max_len = len;` of `ssp_print`
over the records from the current index on. -/
def longest (max_len : Nat) : List ssp_process → Nat
  | [] => max_len
  | proc :: rest =>
    if strlen proc.name > max_len then longest (strlen proc.name) rest
    else longest max_len rest

/-- `printf ("%7s %-*s %s\n", "PID", max_len, "CMD", "STATUS")`. -/
def print_header (max_len : Nat) : String :=
  fmt_right 7 "PID" ++ " " ++ fmt_left max_len "CMD" ++ " " ++ "STATUS" ++ "\n"

/-- `printf ("%7d %-*s %d\n", proc->pid, max_len, proc->name, proc->status)`. -/
def print_row (max_len : Nat) (proc : ssp_process) : String :=
  fmt_right 7 (fmt_d proc.pid) ++ " " ++ fmt_left max_len proc.name ++ " " ++
    fmt_d proc.status ++ "\n"

/-- The loops of `ssp_print` that print one row per record, appending to
the text `out` printed so far. -/
def print_rows (max_len : Nat) (out : String) : List ssp_process → String
  | [] => out
  | proc :: rest => print_rows max_len (out ++ print_row max_len proc) rest

/-- `ssp_print ()`: the globals as it leaves them and the text it writes to
the standard output. -/
def ssp_print (s : State) : State × String :=
  let max_len := longest (longest (strlen "CMD") s.ssp_processes) s.ssp_orphans
  (s, print_rows max_len (print_rows max_len (print_header max_len) s.ssp_processes)
        s.ssp_orphans)

/-! ## Sequences of calls -/

/-- One call of the API or one delivery of a signal, with the answers the
operating system gives during it. -/
inductive Op where
  | create (argv0 : String) (env : CreateEnv)
  | get_status (ssp_id : Int) (a : WaitAnswer)
  | send_signal (ssp_id signum : Int) (k : SysAnswer)
  | wait (answers : List WaitAnswer)
  | signal (signum : Int) (answers : List ReapAnswer)
deriving DecidableEq, Repr

/-- The globals after the call `op` made in `s`, and the value returned when
the call is an `ssp_create`; `none` when the call does not return. -/
def step (s : State) : Op → Option (State × Option Int)
  | Op.create argv0 env =>
    match ssp_create s argv0 env with
    | Outcome.ret v s' _ => some (s', some v)
    | _ => none
  | Op.get_status ssp_id a =>
    match ssp_get_status s ssp_id a with
    | Outcome.ret _ s' _ => some (s', none)
    | _ => none
  | Op.send_signal ssp_id signum k =>
    match ssp_send_signal s ssp_id signum k with
    | Outcome.ret _ s' _ => some (s', none)
    | _ => none
  | Op.wait answers =>
    match ssp_wait s answers with
    | Outcome.ret _ s' _ => some (s', none)
    | _ => none
  | Op.signal signum answers =>
    match handle_signal s signum answers with
    | Outcome.ret _ s' _ => some (s', none)
    | _ => none

/-- The globals after the calls `ops` made in order from `s`, and the values
the calls of `ssp_create` returned, in call order; `none` when one of the
calls does not return. -/
def run (s : State) : List Op → Option (State × List Int)
  | [] => some (s, [])
  | op :: ops =>
    match step s op with
    | none => none
    | some (s', r) =>
      match run s' ops with
      | none => none
      | some (s'', rs) => some (s'', r.toList ++ rs)

/-- The state left by `ssp_init`. -/
def ssp_init_state : State :=
  { ssp_processes := [], maxSize := INITIAL_SIZE,
    ssp_orphans := [], maxSizeOrphans := INITIAL_SIZE }

/-- The states the globals can take after `ssp_init`. -/
def Reachable (s : State) : Prop := ∃ ops rets, run ssp_init_state ops = some (s, rets)

/-- The number of calls of `ssp_create` among `ops`. -/
def creates : List Op → Nat
  | [] => 0
  | Op.create _ _ :: ops => creates ops + 1
  | _ :: ops => creates ops

/-- The values `start, start + 1, .., start + n - 1`. -/
def ids_from (start : Int) : Nat → List Int
  | 0 => []
  | n + 1 => start :: ids_from (start + 1) n

/-- A call of `ssp_create` whose `fork` succeeds (returns the child's pid in
the parent) and whose `realloc` succeeds. -/
def Op.create_ok : Op → Prop
  | Op.create _ env => env.fork.result > 0 ∧ env.realloc = AllocAnswer.block
  | _ => False

/-- The tracked record of index `ssp_id`, if there is one. -/
def tracked (s : State) (ssp_id : Int) : Option ssp_process :=
  if ssp_id < 0 then none else s.ssp_processes[ssp_id.toNat]?

/-- The outcomes of consecutive calls `ssp_get_status (ssp_id)`, one per
answer of the operating system, up to the first that does not return. -/
def get_status_repeat (s : State) (ssp_id : Int) : List WaitAnswer → List (Outcome Int)
  | [] => []
  | a :: more =>
    match ssp_get_status s ssp_id a with
    | Outcome.ret v s' calls => Outcome.ret v s' calls :: get_status_repeat s' ssp_id more
    | other => [other]

/-- The number of records before index `i` whose status is running: the
number of `waitpid` calls `ssp_wait` makes before it reaches index `i`. -/
def running_before : List ssp_process → Nat → Nat
  | [], _ => 0
  | _ :: _, 0 => 0
  | p :: ps, i + 1 => (if p.status = -1 then 1 else 0) + running_before ps i

/-- The records whose status is running. -/
def running (ps : List ssp_process) : List ssp_process :=
  ps.filter (fun p => decide (p.status = -1))

/-- The larger of 3 (the length of `"CMD"`) and the length of the longest
name among the tracked records and the orphans. -/
def cmd_width (s : State) : Nat :=
  ((s.ssp_processes ++ s.ssp_orphans).map (fun p => strlen p.name)).foldr max 3

/-- The number of records that are running in `ps` and resolved at the same
index in `qs`: the resolutions of tracked records between two states. -/
def resolutions : List ssp_process → List ssp_process → Nat
  | p :: ps, q :: qs =>
    (if p.status = -1 ∧ q.status ≠ -1 then 1 else 0) + resolutions ps qs
  | _, _ => 0

/-! ## Vocabulary of the properties -/

/-- No resolved tracked record has the pid `pid`: every tracked record with
that pid is still running. -/
def unresolved_pid (ps : List ssp_process) (pid : Int) : Prop :=
  ∀ p ∈ ps, p.pid = pid → p.status = -1

instance (ps : List ssp_process) (pid : Int) : Decidable (unresolved_pid ps pid) := by
  unfold unresolved_pid; infer_instance

/-- A wait status of a child that terminated: it exited or a signal killed it. -/
def terminated (w : Nat) : Prop := WIFEXITED w = true ∨ WIFSIGNALED w = true

instance (w : Nat) : Decidable (terminated w) := by
  unfold terminated; infer_instance

/-- The values a status of a tracked record takes: running, or `0 .. 255`. -/
def status_ok (v : Int) : Prop := v = -1 ∨ (0 ≤ v ∧ v ≤ 255)

/-- A record after some calls: only its status may differ, and a status that
differs is in `0 .. 255`. -/
def evolves_to (p q : ssp_process) : Prop :=
  q.pid = p.pid ∧ q.ssp_pid = p.ssp_pid ∧ q.name = p.name ∧
    (q.status = p.status ∨ (0 ≤ q.status ∧ q.status ≤ 255))

/-- The tracked array after some calls that create no process. -/
def Evolves (ps qs : List ssp_process) : Prop := List.Forall₂ evolves_to ps qs

/-- The record `ssp_create` writes into the slot `ssp_process_count`. -/
def created (s : State) (argv0 : String) (pid : Int) : ssp_process :=
  { status := -1, pid := pid, ssp_pid := s.ssp_process_count, name := argv0 }

/-! ## Sample answers of the operating system -/

/-- A `fork` that returns `pid` in the parent, with a `realloc` that succeeds. -/
def okFork (pid : Int) : CreateEnv :=
  { realloc := AllocAnswer.block, fork := ⟨pid, 0⟩,
    child := ⟨⟨0, 0⟩, ⟨1, 0⟩, ⟨2, 0⟩, AllocAnswer.block, ⟨0, 0⟩, none⟩ }

/-- A `waitpid (-1, ..)` that reaps `pid` with wait status `w`. -/
def reaped (pid : Int) (w : Nat) : ReapAnswer := ⟨⟨pid, w, 0⟩, AllocAnswer.block, 0⟩

/-- A `waitpid (-1, ..)` that fails with `ECHILD`: no child is left. -/
def noMore : ReapAnswer := ⟨⟨-1, 0, ECHILD⟩, AllocAnswer.block, 0⟩

/-! ## Valid ids -/

theorem toNat_lt_of_valid {s : State} {ssp_id : Int} (h : ¬ invalid_id s ssp_id) :
    ssp_id.toNat < s.ssp_processes.length := by
  unfold invalid_id State.ssp_process_count at h
  omega

/-! ## Wait statuses -/

theorem WEXITSTATUS_le (w : Nat) : WEXITSTATUS w ≤ 255 := by
  unfold WEXITSTATUS
  rw [Nat.shiftRight_eq_div_pow]
  have : w &&& 0xff00 ≤ 0xff00 := Nat.and_le_right
  omega

theorem WTERMSIG_le (w : Nat) : WTERMSIG w ≤ 127 := by
  unfold WTERMSIG
  exact Nat.and_le_right

theorem WIFSIGNALED_iff (w : Nat) :
    WIFSIGNALED w = true ↔ 1 ≤ WTERMSIG w ∧ WTERMSIG w ≤ 126 := by
  have h := WTERMSIG_le w
  unfold WIFSIGNALED toSignedChar
  unfold WTERMSIG at h ⊢
  generalize w &&& 0x7f = t at h ⊢
  simp only [decide_eq_true_eq]
  split_ifs with h1 <;> omega

theorem WIFEXITED_iff (w : Nat) : WIFEXITED w = true ↔ WTERMSIG w = 0 := by
  unfold WIFEXITED
  simp

/-- A status is either exited or signaled, never both. -/
theorem not_exited_of_signaled (w : Nat) (h : WIFSIGNALED w = true) : WIFEXITED w = false := by
  have h1 := (WIFSIGNALED_iff w).1 h
  cases hE : WIFEXITED w
  · rfl
  · have := (WIFEXITED_iff w).1 hE
    omega

theorem resolve_exited (w : Nat) (old : Int) (h : WIFEXITED w = true) :
    resolve w old = (WEXITSTATUS w : Int) := by
  simp [resolve, h]

theorem resolve_signaled (w : Nat) (old : Int) (h : WIFSIGNALED w = true) :
    resolve w old = (WTERMSIG w : Int) + 128 := by
  simp [resolve, h, not_exited_of_signaled w h]

theorem resolve_unchanged_or_range (w : Nat) (old : Int) :
    resolve w old = old ∨ (0 ≤ resolve w old ∧ resolve w old ≤ 255) := by
  unfold resolve
  have h1 := WEXITSTATUS_le w
  have h2 := WTERMSIG_le w
  split_ifs <;> omega

theorem resolve_range (w : Nat) (old : Int) (h : terminated w) :
    0 ≤ resolve w old ∧ resolve w old ≤ 255 := by
  have h1 := WEXITSTATUS_le w
  have h2 := WTERMSIG_le w
  rcases h with h | h
  · rw [resolve_exited w old h]; omega
  · rw [resolve_signaled w old h]; omega

theorem resolve_ne_running (w : Nat) (old : Int) (h : terminated w) :
    resolve w old ≠ -1 := by
  have := resolve_range w old h
  omega

theorem status_ok_resolve (w : Nat) (old : Int) (h : status_ok old) :
    status_ok (resolve w old) := by
  rcases resolve_unchanged_or_range w old with h1 | h1
  · rw [h1]; exact h
  · exact Or.inr h1

/-! ## What a call may change in the tracked records -/

theorem evolves_to_refl (p : ssp_process) : evolves_to p p :=
  ⟨rfl, rfl, rfl, Or.inl rfl⟩

theorem evolves_to_trans {p q r : ssp_process} (h1 : evolves_to p q) (h2 : evolves_to q r) :
    evolves_to p r := by
  obtain ⟨a1, a2, a3, a4⟩ := h1
  obtain ⟨b1, b2, b3, b4⟩ := h2
  refine ⟨by rw [b1, a1], by rw [b2, a2], by rw [b3, a3], ?_⟩
  rcases b4 with b4 | b4
  · rw [b4]; exact a4
  · exact Or.inr b4

theorem evolves_to_resolve (p : ssp_process) (w : Nat) :
    evolves_to p { p with status := resolve w p.status } :=
  ⟨rfl, rfl, rfl, resolve_unchanged_or_range w p.status⟩

theorem Evolves.refl (ps : List ssp_process) : Evolves ps ps := by
  induction ps with
  | nil => exact List.Forall₂.nil
  | cons p ps ih => exact List.Forall₂.cons (evolves_to_refl p) ih

theorem Evolves.trans {ps qs rs : List ssp_process} (h1 : Evolves ps qs) (h2 : Evolves qs rs) :
    Evolves ps rs := by
  induction h1 generalizing rs with
  | nil => cases h2; exact List.Forall₂.nil
  | cons hpq _ ih =>
    cases h2 with
    | cons hqr hrest => exact List.Forall₂.cons (evolves_to_trans hpq hqr) (ih hrest)

theorem Evolves.length_eq {ps qs : List ssp_process} (h : Evolves ps qs) :
    qs.length = ps.length := (List.Forall₂.length_eq h).symm

theorem Evolves.status_ok {ps qs : List ssp_process} (h : Evolves ps qs)
    (hp : ∀ p ∈ ps, status_ok p.status) : ∀ q ∈ qs, status_ok q.status := by
  induction h with
  | nil => intro q hq; cases hq
  | cons hpq _ ih =>
    intro q hq
    rcases List.mem_cons.1 hq with rfl | hq
    · rcases hpq.2.2.2 with h1 | h1
      · rw [h1]; exact hp _ (List.mem_cons_self _ _)
      · exact Or.inr h1
    · exact ih (fun p hp' => hp p (List.mem_cons_of_mem _ hp')) q hq

theorem Evolves.set_status (ps : List ssp_process) (i : Nat) (w : Nat)
    (hi : i < ps.length) :
    Evolves ps (set_status ps i (resolve w (ps.get ⟨i, hi⟩).status)) := by
  induction ps generalizing i with
  | nil => cases hi
  | cons p ps ih =>
    cases i with
    | zero =>
      exact List.Forall₂.cons ⟨rfl, rfl, rfl, resolve_unchanged_or_range w p.status⟩
        (Evolves.refl ps)
    | succ i =>
      have hi' : i < ps.length := by simpa using hi
      exact List.Forall₂.cons (evolves_to_refl p) (ih i hi')

theorem Evolves.wait_loop (ps : List ssp_process) (answers : List WaitAnswer)
    (qs : List ssp_process) (calls : List Syscall)
    (h : wait_loop ps answers = Except.ok (qs, calls)) : Evolves ps qs := by
  induction ps generalizing answers qs calls with
  | nil =>
    simp only [SSP.wait_loop, Except.ok.injEq, Prod.mk.injEq] at h
    rw [← h.1]; exact List.Forall₂.nil
  | cons p ps ih =>
    unfold SSP.wait_loop at h
    split_ifs at h with hp
    · cases answers with
      | nil => simp at h
      | cons a more =>
        simp only at h
        split_ifs at h with ha
        cases hrec : SSP.wait_loop ps more with
        | error e => rw [hrec] at h; simp at h
        | ok r =>
          obtain ⟨rest, c⟩ := r
          rw [hrec] at h
          simp only [Except.ok.injEq, Prod.mk.injEq] at h
          rw [← h.1]
          exact List.Forall₂.cons (evolves_to_resolve p a.wstatus) (ih more rest c hrec)
    · cases hrec : SSP.wait_loop ps answers with
      | error e => rw [hrec] at h; simp at h
      | ok r =>
        obtain ⟨rest, c⟩ := r
        rw [hrec] at h
        simp only [Except.ok.injEq, Prod.mk.injEq] at h
        rw [← h.1]
        exact List.Forall₂.cons (evolves_to_refl p) (ih answers rest c hrec)

theorem Evolves.scan_tracked (result : Int) (w : Nat) (ps : List ssp_process) :
    Evolves ps (scan_tracked result w ps).2 := by
  induction ps with
  | nil => exact List.Forall₂.nil
  | cons p ps ih =>
    unfold SSP.scan_tracked
    split_ifs with hp
    · exact List.Forall₂.cons (evolves_to_resolve p w) (Evolves.refl ps)
    · exact List.Forall₂.cons (evolves_to_refl p) ih

/-! ## What each call does when it returns -/

theorem child_side_not_ret (c : ChildEnv) (v : Int) (s' : State) (calls : List Syscall) :
    child_side c ≠ Outcome.ret v s' calls := by
  unfold child_side
  by_cases h0 : c.dup2_0.result = -1
  · simp [h0]
  by_cases h1 : c.dup2_1.result = -1
  · simp [h0, h1]
  by_cases h2 : c.dup2_2.result = -1
  · simp [h0, h1, h2]
  simp only [h0, h1, h2, if_false]
  cases c.opendir with
  | null err => simp
  | block =>
    by_cases h3 : c.closedir.result = -1
    · simp [h3]
    · cases c.execvp <;> simp [h3]

theorem ssp_create_fork_ret {s s' : State} {argv0 : String} {env : CreateEnv}
    {c0 calls : List Syscall} {v : Int}
    (h : ssp_create_fork s argv0 env c0 = Outcome.ret v s' calls) :
    v = s.ssp_process_count ∧
      s' = { s with ssp_processes := s.ssp_processes ++ [created s argv0 env.fork.result] } ∧
      env.fork.result ≠ -1 ∧ env.fork.result ≠ 0 ∧ calls = c0 ++ [Syscall.fork] := by
  unfold ssp_create_fork at h
  split_ifs at h with h1 h2
  · exact absurd h (child_side_not_ret _ _ _ _)
  · simp only [Outcome.ret.injEq] at h
    exact ⟨h.1.symm, h.2.1.symm, h1, h2, h.2.2.symm⟩

theorem ssp_create_ret {s s' : State} {argv0 : String} {env : CreateEnv}
    {calls : List Syscall} {v : Int}
    (h : ssp_create s argv0 env = Outcome.ret v s' calls) :
    v = s.ssp_process_count ∧
      s'.ssp_processes = s.ssp_processes ++ [created s argv0 env.fork.result] ∧
      s'.ssp_orphans = s.ssp_orphans ∧ s'.maxSizeOrphans = s.maxSizeOrphans ∧
      env.fork.result ≠ -1 ∧ env.fork.result ≠ 0 := by
  unfold ssp_create at h
  split_ifs at h with h1
  · cases hr : env.realloc with
    | null err => rw [hr] at h; simp at h
    | block =>
      rw [hr] at h
      obtain ⟨a, b, c, d, _⟩ := ssp_create_fork_ret h
      subst b
      exact ⟨a, rfl, rfl, rfl, c, d⟩
  · obtain ⟨a, b, c, d, _⟩ := ssp_create_fork_ret h
    subst b
    exact ⟨a, rfl, rfl, rfl, c, d⟩

theorem ssp_get_status_invalid {s : State} {ssp_id : Int} (a : WaitAnswer)
    (h : invalid_id s ssp_id) : ssp_get_status s ssp_id a = Outcome.ret (-2) s [] := by
  unfold ssp_get_status
  rw [dif_pos h]

theorem ssp_get_status_known {s : State} {ssp_id : Int} (a : WaitAnswer)
    (h : ¬ invalid_id s ssp_id) (hs : (proc_at s ssp_id h).status ≠ -1) :
    ssp_get_status s ssp_id a = Outcome.ret (proc_at s ssp_id h).status s [] := by
  unfold ssp_get_status
  rw [dif_neg h]
  simp only [if_pos hs]

theorem ssp_get_status_running {s : State} {ssp_id : Int} (a : WaitAnswer)
    (h : ¬ invalid_id s ssp_id) (hs : (proc_at s ssp_id h).status = -1) :
    ssp_get_status s ssp_id a =
      if a.result = 0 then
        Outcome.ret (-1) s [Syscall.waitpid (proc_at s ssp_id h).pid WNOHANG]
      else if a.result = -1 then Outcome.exit a.errno
      else
        Outcome.ret (resolve a.wstatus (-1))
          { s with ssp_processes :=
              set_status s.ssp_processes ssp_id.toNat (resolve a.wstatus (-1)) }
          [Syscall.waitpid (proc_at s ssp_id h).pid WNOHANG] := by
  unfold ssp_get_status
  rw [dif_neg h]
  simp only [hs, ne_eq, not_true_eq_false, if_false]

theorem ssp_get_status_ret {s s' : State} {ssp_id : Int} {a : WaitAnswer}
    {calls : List Syscall} {v : Int}
    (h : ssp_get_status s ssp_id a = Outcome.ret v s' calls) :
    Evolves s.ssp_processes s'.ssp_processes ∧ s'.ssp_orphans = s.ssp_orphans ∧
      s'.maxSize = s.maxSize ∧ s'.maxSizeOrphans = s.maxSizeOrphans := by
  by_cases h1 : invalid_id s ssp_id
  · rw [ssp_get_status_invalid a h1] at h
    simp only [Outcome.ret.injEq] at h
    rw [← h.2.1]; exact ⟨Evolves.refl _, rfl, rfl, rfl⟩
  by_cases h2 : (proc_at s ssp_id h1).status = -1
  · rw [ssp_get_status_running a h1 h2] at h
    by_cases h3 : a.result = 0
    · rw [if_pos h3] at h
      simp only [Outcome.ret.injEq] at h
      rw [← h.2.1]; exact ⟨Evolves.refl _, rfl, rfl, rfl⟩
    rw [if_neg h3] at h
    by_cases h4 : a.result = -1
    · rw [if_pos h4] at h; simp at h
    rw [if_neg h4] at h
    simp only [Outcome.ret.injEq] at h
    rw [← h.2.1]
    refine ⟨?_, rfl, rfl, rfl⟩
    have := Evolves.set_status s.ssp_processes ssp_id.toNat a.wstatus (toNat_lt_of_valid h1)
    unfold proc_at at h2
    rw [h2] at this
    exact this
  · rw [ssp_get_status_known a h1 h2] at h
    simp only [Outcome.ret.injEq] at h
    rw [← h.2.1]; exact ⟨Evolves.refl _, rfl, rfl, rfl⟩

theorem ssp_send_signal_invalid {s : State} {ssp_id : Int} (signum : Int) (k : SysAnswer)
    (h : invalid_id s ssp_id) : ssp_send_signal s ssp_id signum k = Outcome.ret () s [] := by
  unfold ssp_send_signal
  rw [dif_pos h]

theorem ssp_send_signal_known {s : State} {ssp_id : Int} (signum : Int) (k : SysAnswer)
    (h : ¬ invalid_id s ssp_id) (hs : (proc_at s ssp_id h).status ≠ -1) :
    ssp_send_signal s ssp_id signum k = Outcome.ret () s [] := by
  unfold ssp_send_signal
  rw [dif_neg h]
  simp only [if_pos hs]

theorem ssp_send_signal_running {s : State} {ssp_id : Int} (signum : Int) (k : SysAnswer)
    (h : ¬ invalid_id s ssp_id) (hs : (proc_at s ssp_id h).status = -1) :
    ssp_send_signal s ssp_id signum k =
      if k.result = -1 then
        if k.errno = ESRCH then
          Outcome.ret () s [Syscall.kill (proc_at s ssp_id h).pid signum]
        else Outcome.exit k.errno
      else Outcome.ret () s [Syscall.kill (proc_at s ssp_id h).pid signum] := by
  unfold ssp_send_signal
  rw [dif_neg h]
  simp only [hs, ne_eq, not_true_eq_false, if_false]

theorem ssp_send_signal_ret {s s' : State} {ssp_id signum : Int} {k : SysAnswer}
    {calls : List Syscall} {v : Unit}
    (h : ssp_send_signal s ssp_id signum k = Outcome.ret v s' calls) : s' = s := by
  by_cases h1 : invalid_id s ssp_id
  · rw [ssp_send_signal_invalid signum k h1] at h
    simp only [Outcome.ret.injEq] at h
    exact h.2.1.symm
  by_cases h2 : (proc_at s ssp_id h1).status = -1
  · rw [ssp_send_signal_running signum k h1 h2] at h
    split_ifs at h <;> simp only [Outcome.ret.injEq] at h <;> exact h.2.1.symm
  · rw [ssp_send_signal_known signum k h1 h2] at h
    simp only [Outcome.ret.injEq] at h
    exact h.2.1.symm

theorem wait_loop_error (ps : List ssp_process) (answers : List WaitAnswer)
    (e : Outcome Unit) (h : wait_loop ps answers = Except.error e) :
    e = Outcome.pending ∨ ∃ err, e = Outcome.exit err := by
  induction ps generalizing answers with
  | nil => simp [wait_loop] at h
  | cons p ps ih =>
    unfold wait_loop at h
    by_cases hp : p.status = -1
    · rw [if_pos hp] at h
      cases answers with
      | nil =>
        simp only [Except.error.injEq] at h
        exact Or.inl h.symm
      | cons a more =>
        simp only at h
        by_cases ha : a.result = -1
        · rw [if_pos ha] at h
          simp only [Except.error.injEq] at h
          exact Or.inr ⟨_, h.symm⟩
        · rw [if_neg ha] at h
          cases hrec : wait_loop ps more with
          | error e' =>
            rw [hrec] at h
            simp only [Except.error.injEq] at h
            exact ih more (h ▸ hrec)
          | ok r => rw [hrec] at h; simp at h
    · rw [if_neg hp] at h
      cases hrec : wait_loop ps answers with
      | error e' =>
        rw [hrec] at h
        simp only [Except.error.injEq] at h
        exact ih answers (h ▸ hrec)
      | ok r => rw [hrec] at h; simp at h

theorem ssp_wait_ret {s s' : State} {answers : List WaitAnswer}
    {calls : List Syscall} {v : Unit}
    (h : ssp_wait s answers = Outcome.ret v s' calls) :
    wait_loop s.ssp_processes answers = Except.ok (s'.ssp_processes, calls) ∧
      s'.ssp_orphans = s.ssp_orphans ∧
      s'.maxSize = s.maxSize ∧ s'.maxSizeOrphans = s.maxSizeOrphans := by
  unfold ssp_wait at h
  cases hl : wait_loop s.ssp_processes answers with
  | error e =>
    rw [hl] at h
    simp only at h
    rcases wait_loop_error _ _ _ hl with he | ⟨err, he⟩ <;> rw [he] at h <;> simp at h
  | ok r =>
    obtain ⟨ps, c⟩ := r
    rw [hl] at h
    simp only [Outcome.ret.injEq] at h
    rw [← h.2.1, ← h.2.2]
    exact ⟨rfl, rfl, rfl, rfl⟩

/-! ### The handler -/

theorem add_orphan_ret {s s' : State} {a : ReapAnswer} {calls : List Syscall} {v : Unit}
    (h : add_orphan s a = Outcome.ret v s' calls) :
    s'.ssp_processes = s.ssp_processes ∧ s'.maxSize = s.maxSize ∧
      s'.ssp_orphans = s.ssp_orphans ++
        [{ pid := a.wait.result, ssp_pid := s.ssp_orphans_count, name := "<unknown>",
           status := resolve a.wait.wstatus a.slot_status }] := by
  unfold add_orphan at h
  by_cases hfull : s.ssp_orphans_count = s.maxSizeOrphans
  · simp only [if_pos hfull] at h
    cases hr : a.realloc with
    | null err => rw [hr] at h; simp at h
    | block =>
      rw [hr] at h
      simp only [Outcome.ret.injEq] at h
      rw [← h.2.1]
      exact ⟨rfl, rfl, rfl⟩
  · simp only [if_neg hfull] at h
    simp only [Outcome.ret.injEq] at h
    rw [← h.2.1]
    exact ⟨rfl, rfl, rfl⟩

theorem reap_child_ret {s s' : State} {a : ReapAnswer} {calls : List Syscall} {v : Unit}
    (h : reap_child s a = Outcome.ret v s' calls) :
    Evolves s.ssp_processes s'.ssp_processes ∧ s'.maxSize = s.maxSize ∧
      s.ssp_orphans <+: s'.ssp_orphans := by
  unfold reap_child at h
  by_cases hf : (scan_tracked a.wait.result a.wait.wstatus s.ssp_processes).1 = true
  · rw [if_pos hf] at h
    simp only [Outcome.ret.injEq] at h
    rw [← h.2.1]
    exact ⟨Evolves.scan_tracked _ _ _, rfl, List.prefix_refl _⟩
  · rw [if_neg hf] at h
    obtain ⟨h1, h2, h3⟩ := add_orphan_ret h
    rw [h1, h2, h3]
    exact ⟨Evolves.refl _, rfl, List.prefix_append _ _⟩

theorem drain_ret {s s' : State} {answers : List ReapAnswer} {c0 calls : List Syscall}
    {v : Unit} (h : drain s c0 answers = Outcome.ret v s' calls) :
    Evolves s.ssp_processes s'.ssp_processes ∧ s'.maxSize = s.maxSize ∧
      s.ssp_orphans <+: s'.ssp_orphans := by
  induction answers generalizing s c0 with
  | nil => simp [drain] at h
  | cons a more ih =>
    unfold drain at h
    by_cases hpos : a.wait.result > 0
    · rw [if_pos hpos] at h
      cases hb : reap_child s a with
      | ret u s1 made =>
        rw [hb] at h
        simp only at h
        obtain ⟨e1, m1, o1⟩ := reap_child_ret hb
        obtain ⟨e2, m2, o2⟩ := ih h
        exact ⟨e1.trans e2, by rw [m2, m1], o1.trans o2⟩
      | exit err => rw [hb] at h; simp at h
      | exec => rw [hb] at h; simp at h
      | pending => rw [hb] at h; simp at h
    · rw [if_neg hpos] at h
      split_ifs at h
      simp only [Outcome.ret.injEq] at h
      rw [← h.2.1]
      exact ⟨Evolves.refl _, rfl, List.prefix_refl _⟩

theorem handle_signal_ret {s s' : State} {signum : Int} {answers : List ReapAnswer}
    {calls : List Syscall} {v : Unit}
    (h : handle_signal s signum answers = Outcome.ret v s' calls) :
    Evolves s.ssp_processes s'.ssp_processes ∧ s'.maxSize = s.maxSize ∧
      s.ssp_orphans <+: s'.ssp_orphans := by
  unfold handle_signal at h
  by_cases hs : signum = SIGCHLD
  · rw [if_pos hs] at h
    exact drain_ret h
  · rw [if_neg hs] at h
    simp only [Outcome.ret.injEq] at h
    rw [← h.2.1]
    exact ⟨Evolves.refl _, rfl, List.prefix_refl _⟩

/-! ### Sequences of calls -/

theorem ssp_create_total (s : State) (argv0 : String) (env : CreateEnv)
    (hfork : env.fork.result > 0)
    (hrealloc : s.ssp_process_count = s.maxSize → env.realloc = AllocAnswer.block) :
    ∃ s' calls, ssp_create s argv0 env = Outcome.ret s.ssp_process_count s' calls := by
  have h1 : ¬ env.fork.result = -1 := by omega
  have h2 : ¬ env.fork.result = 0 := by omega
  unfold ssp_create
  by_cases hfull : s.ssp_process_count = s.maxSize
  · rw [if_pos hfull, hrealloc hfull]
    simp only [ssp_create_fork, if_neg h1, if_neg h2]
    exact ⟨_, _, rfl⟩
  · rw [if_neg hfull]
    simp only [ssp_create_fork, if_neg h1, if_neg h2]
    exact ⟨_, _, rfl⟩

theorem count_after_create {s s' : State} {p : ssp_process}
    (h : s'.ssp_processes = s.ssp_processes ++ [p]) :
    s'.ssp_process_count = s.ssp_process_count + 1 := by
  unfold State.ssp_process_count
  rw [h]
  simp

theorem count_of_evolves {s s' : State} (h : Evolves s.ssp_processes s'.ssp_processes) :
    s'.ssp_process_count = s.ssp_process_count := by
  unfold State.ssp_process_count
  rw [h.length_eq]

/-- What one call does to the tracked array: `ssp_create` appends a running
record and returns its index, every other call changes statuses only. -/
theorem step_ret {s s' : State} {op : Op} {r : Option Int} (h : step s op = some (s', r)) :
    (∃ argv0 env, op = Op.create argv0 env ∧ r = some s.ssp_process_count ∧
        s'.ssp_processes = s.ssp_processes ++ [created s argv0 env.fork.result]) ∨
    ((∀ argv0 env, op ≠ Op.create argv0 env) ∧ r = none ∧
        Evolves s.ssp_processes s'.ssp_processes) := by
  cases op with
  | create argv0 env =>
    left
    simp only [step] at h
    cases hc : ssp_create s argv0 env with
    | ret v s1 calls =>
      rw [hc] at h
      simp only [Option.some.injEq, Prod.mk.injEq] at h
      obtain ⟨a, b, _⟩ := ssp_create_ret hc
      exact ⟨argv0, env, rfl, by rw [← h.2, a], by rw [← h.1, b]⟩
    | exit err => rw [hc] at h; simp at h
    | exec => rw [hc] at h; simp at h
    | pending => rw [hc] at h; simp at h
  | get_status ssp_id a =>
    right
    simp only [step] at h
    cases hc : ssp_get_status s ssp_id a with
    | ret v s1 calls =>
      rw [hc] at h
      simp only [Option.some.injEq, Prod.mk.injEq] at h
      exact ⟨(by intro _ _ hh; cases hh), h.2.symm, by rw [← h.1]; exact (ssp_get_status_ret hc).1⟩
    | exit err => rw [hc] at h; simp at h
    | exec => rw [hc] at h; simp at h
    | pending => rw [hc] at h; simp at h
  | send_signal ssp_id signum k =>
    right
    simp only [step] at h
    cases hc : ssp_send_signal s ssp_id signum k with
    | ret v s1 calls =>
      rw [hc] at h
      simp only [Option.some.injEq, Prod.mk.injEq] at h
      refine ⟨(by intro _ _ hh; cases hh), h.2.symm, ?_⟩
      rw [← h.1, ssp_send_signal_ret hc]
      exact Evolves.refl _
    | exit err => rw [hc] at h; simp at h
    | exec => rw [hc] at h; simp at h
    | pending => rw [hc] at h; simp at h
  | wait answers =>
    right
    simp only [step] at h
    cases hc : ssp_wait s answers with
    | ret v s1 calls =>
      rw [hc] at h
      simp only [Option.some.injEq, Prod.mk.injEq] at h
      refine ⟨(by intro _ _ hh; cases hh), h.2.symm, ?_⟩
      rw [← h.1]
      exact Evolves.wait_loop _ _ _ _ (ssp_wait_ret hc).1
    | exit err => rw [hc] at h; simp at h
    | exec => rw [hc] at h; simp at h
    | pending => rw [hc] at h; simp at h
  | signal signum answers =>
    right
    simp only [step] at h
    cases hc : handle_signal s signum answers with
    | ret v s1 calls =>
      rw [hc] at h
      simp only [Option.some.injEq, Prod.mk.injEq] at h
      refine ⟨(by intro _ _ hh; cases hh), h.2.symm, ?_⟩
      rw [← h.1]
      exact (handle_signal_ret hc).1
    | exit err => rw [hc] at h; simp at h
    | exec => rw [hc] at h; simp at h
    | pending => rw [hc] at h; simp at h

theorem run_cons {s s2 : State} {op : Op} {ops : List Op} {rets : List Int}
    (h : run s (op :: ops) = some (s2, rets)) :
    ∃ s1 r rs, step s op = some (s1, r) ∧ run s1 ops = some (s2, rs) ∧
      rets = r.toList ++ rs := by
  simp only [run] at h
  cases hs : step s op with
  | none => rw [hs] at h; simp at h
  | some x =>
    obtain ⟨s1, r⟩ := x
    rw [hs] at h
    simp only at h
    cases hr : run s1 ops with
    | none => rw [hr] at h; simp at h
    | some y =>
      obtain ⟨s3, rs⟩ := y
      rw [hr] at h
      simp only [Option.some.injEq, Prod.mk.injEq] at h
      exact ⟨s1, r, rs, rfl, h.1 ▸ hr, h.2.symm⟩

theorem creates_cons_of_not_create {op : Op} (ops : List Op)
    (h : ∀ argv0 env, op ≠ Op.create argv0 env) : creates (op :: ops) = creates ops := by
  cases op with
  | create argv0 env => exact absurd rfl (h argv0 env)
  | get_status _ _ => rfl
  | send_signal _ _ _ => rfl
  | wait _ => rfl
  | signal _ _ => rfl

/-- From any state, the calls of `ssp_create` in a sequence of calls return
the successive values of `ssp_process_count`. -/
theorem run_ids {s s' : State} {ops : List Op} {rets : List Int}
    (h : run s ops = some (s', rets)) :
    rets = ids_from s.ssp_process_count (creates ops) ∧
      s'.ssp_process_count = s.ssp_process_count + creates ops := by
  induction ops generalizing s rets with
  | nil =>
    simp only [run, Option.some.injEq, Prod.mk.injEq] at h
    rw [← h.1, ← h.2]
    simp [creates, ids_from]
  | cons op ops ih =>
    obtain ⟨s1, r, rs, h1, h2, h3⟩ := run_cons h
    obtain ⟨ihr, ihc⟩ := ih h2
    rcases step_ret h1 with ⟨argv0, env, hop, hr, hps⟩ | ⟨hop, hr, hev⟩
    · have hc := count_after_create hps
      subst hop
      rw [h3, hr, ihr, ihc, hc]
      simp only [creates, ids_from, Option.toList, List.singleton_append, true_and]
      push_cast
      ring_nf
    · have hc := count_of_evolves hev
      rw [h3, hr, ihr, ihc, hc, creates_cons_of_not_create ops hop]
      simp

theorem run_creates_total (s : State) (ops : List Op) (h : ∀ op ∈ ops, op.create_ok) :
    ∃ s' rets, run s ops = some (s', rets) := by
  induction ops generalizing s with
  | nil => exact ⟨s, [], rfl⟩
  | cons op ops ih =>
    have hop := h op (List.mem_cons_self _ _)
    cases op with
    | create argv0 env =>
      obtain ⟨s1, calls, hc⟩ := ssp_create_total s argv0 env hop.1 (fun _ => hop.2)
      obtain ⟨s2, rets, hr⟩ := ih s1 (fun o ho => h o (List.mem_cons_of_mem _ ho))
      exact ⟨s2, (some s.ssp_process_count).toList ++ rets, by simp only [run, step, hc, hr]⟩
    | get_status _ _ => exact absurd hop (by simp [Op.create_ok])
    | send_signal _ _ _ => exact absurd hop (by simp [Op.create_ok])
    | wait _ => exact absurd hop (by simp [Op.create_ok])
    | signal _ _ => exact absurd hop (by simp [Op.create_ok])

theorem ids_from_zero (n : Nat) : ids_from 0 n = (List.range n).map Int.ofNat := by
  have key : ∀ (n : Nat) (k : Nat), ids_from (k : Int) n =
      (List.range n).map (fun i => Int.ofNat (k + i)) := by
    intro n
    induction n with
    | zero => intro k; rfl
    | succ n ih =>
      intro k
      rw [List.range_succ_eq_map]
      simp only [ids_from, List.map_cons, List.map_map, Nat.add_zero]
      have := ih (k + 1)
      push_cast at this
      rw [this]
      refine congrArg₂ _ rfl (List.map_congr_left ?_)
      intro i _
      simp only [Function.comp, Int.ofNat_eq_coe]
      push_cast
      ring
  have := key n 0
  simpa using this

theorem creates_of_create_ok (ops : List Op) (h : ∀ op ∈ ops, op.create_ok) :
    creates ops = ops.length := by
  induction ops with
  | nil => rfl
  | cons op ops ih =>
    have hop := h op (List.mem_cons_self _ _)
    have := ih (fun o ho => h o (List.mem_cons_of_mem _ ho))
    cases op with
    | create argv0 env => simp [creates, this]
    | get_status _ _ => exact absurd hop (by simp [Op.create_ok])
    | send_signal _ _ _ => exact absurd hop (by simp [Op.create_ok])
    | wait _ => exact absurd hop (by simp [Op.create_ok])
    | signal _ _ => exact absurd hop (by simp [Op.create_ok])

/-- From the state left by `ssp_init`, the calls of `ssp_create` in a
sequence of calls that all return give `0, 1, ..` and the count is their
number. -/
theorem run_from_init {ops : List Op} {s : State} {rets : List Int}
    (h : run ssp_init_state ops = some (s, rets)) :
    rets = (List.range (creates ops)).map Int.ofNat ∧
      s.ssp_process_count = creates ops := by
  obtain ⟨h1, h2⟩ := run_ids h
  have h0 : ssp_init_state.ssp_process_count = 0 := rfl
  rw [h0] at h1 h2
  exact ⟨by rw [h1, ids_from_zero], by rw [h2]; simp⟩

/-- The state `ssp_init` leaves when it is called on the globals as their
initialisers set them is `ssp_init_state`, and `ssp_init` returns when the
allocations and registrations succeed. -/
theorem ssp_init_leaves :
    (∀ (env : InitEnv) (s : State) (calls : List Syscall),
        ssp_init initial_globals env = Outcome.ret () s calls → s = ssp_init_state) ∧
    (∀ env : InitEnv, env.malloc_processes = AllocAnswer.block →
        env.malloc_orphans = AllocAnswer.block → env.prctl.result ≠ -1 →
        env.sigaction.result ≠ -1 →
        ssp_init initial_globals env = Outcome.ret () ssp_init_state []) := by
  constructor
  · intro env s calls h
    unfold ssp_init at h
    cases h1 : env.malloc_processes with
    | null err => rw [h1] at h; simp at h
    | block =>
      cases h2 : env.malloc_orphans with
      | null err => rw [h1, h2] at h; simp at h
      | block =>
        rw [h1, h2] at h
        simp only [register_signal] at h
        split_ifs at h
        simp only [Outcome.ret.injEq] at h
        rw [← h.2.1]
        rfl
  · intro env h1 h2 h3 h4
    unfold ssp_init
    rw [h1, h2]
    simp only [register_signal, if_neg h3, if_neg h4]
    rfl

/-! ## C1: the ids returned by `ssp_create` -/

/-- C1. An `ssp_create` whose `fork` succeeds (and whose `realloc`, when the
array is full, succeeds) returns the value `ssp_process_count` had before the
call and increases it by one; every `ssp_create` that returns does so; from
the state left by `ssp_init`, in every sequence of calls of `ssp_create`,
`ssp_get_status`, `ssp_send_signal`, `ssp_wait` and `handle_signal` that all
return, the `N` calls of `ssp_create` return `0, 1, .., N-1` in call order and
leave `ssp_process_count = N`; and a sequence of `ssp_create` calls whose
forks and reallocs succeed does return. -/
theorem create_returns_sequential_ids :
    (∀ (s : State) (argv0 : String) (env : CreateEnv), env.fork.result > 0 →
        (s.ssp_process_count = s.maxSize → env.realloc = AllocAnswer.block) →
        ∃ s' calls, ssp_create s argv0 env = Outcome.ret s.ssp_process_count s' calls ∧
          s'.ssp_process_count = s.ssp_process_count + 1) ∧
    (∀ (s s' : State) (argv0 : String) (env : CreateEnv) (v : Int) (calls : List Syscall),
        ssp_create s argv0 env = Outcome.ret v s' calls →
        v = s.ssp_process_count ∧ s'.ssp_process_count = s.ssp_process_count + 1) ∧
    (∀ (ops : List Op) (s : State) (rets : List Int),
        run ssp_init_state ops = some (s, rets) →
        rets = (List.range (creates ops)).map Int.ofNat ∧
          s.ssp_process_count = creates ops) ∧
    (∀ ops : List Op, (∀ op ∈ ops, op.create_ok) →
        ∃ s, run ssp_init_state ops = some (s, (List.range ops.length).map Int.ofNat)) := by
  refine ⟨?_, ?_, ?_, ?_⟩
  · intro s argv0 env hfork hrealloc
    obtain ⟨s', calls, h⟩ := ssp_create_total s argv0 env hfork hrealloc
    exact ⟨s', calls, h, count_after_create (ssp_create_ret h).2.1⟩
  · intro s s' argv0 env v calls h
    exact ⟨(ssp_create_ret h).1, count_after_create (ssp_create_ret h).2.1⟩
  · intro ops s rets h
    exact run_from_init h
  · intro ops hok
    obtain ⟨s, rets, h⟩ := run_creates_total ssp_init_state ops hok
    obtain ⟨h1, _⟩ := run_ids h
    have h0 : ssp_init_state.ssp_process_count = 0 := rfl
    rw [h0, ids_from_zero, creates_of_create_ok ops hok] at h1
    exact ⟨s, by rw [h, h1]⟩

/-- C1 at a concrete sequence: two creations with a status query, a signal
delivery and a wait in between return the ids `0` and `1`. -/
theorem create_returns_sequential_ids_witness :
    run ssp_init_state
        [Op.create "true" (okFork 100), Op.get_status 0 ⟨0, 0, 0⟩,
         Op.signal SIGCHLD [reaped 100 0, noMore], Op.create "sh" (okFork 101),
         Op.wait [⟨101, 9, 0⟩]] =
      some (⟨[⟨0, 0, 100, "true"⟩, ⟨137, 1, 101, "sh"⟩], 10, [], 10⟩, [0, 1]) ∧
    ([0, 1] : List Int) = (List.range 2).map Int.ofNat :=
  ⟨by decide,
   (create_returns_sequential_ids.2.2.1 _ _ _
      (show run ssp_init_state
        [Op.create "true" (okFork 100), Op.get_status 0 ⟨0, 0, 0⟩,
         Op.signal SIGCHLD [reaped 100 0, noMore], Op.create "sh" (okFork 101),
         Op.wait [⟨101, 9, 0⟩]] =
        some (⟨[⟨0, 0, 100, "true"⟩, ⟨137, 1, 101, "sh"⟩], 10, [], 10⟩, [0, 1]) by decide)).1⟩

/-! ## C2: the answer `-2` of `ssp_get_status` -/

theorem status_ok_after_step {s s' : State} {op : Op} {r : Option Int}
    (h : step s op = some (s', r)) (hs : ∀ p ∈ s.ssp_processes, status_ok p.status) :
    ∀ p ∈ s'.ssp_processes, status_ok p.status := by
  rcases step_ret h with ⟨argv0, env, _, _, hps⟩ | ⟨_, _, hev⟩
  · intro p hp
    rw [hps] at hp
    rcases List.mem_append.1 hp with hp | hp
    · exact hs p hp
    · rw [List.mem_singleton.1 hp]
      exact Or.inl rfl
  · exact hev.status_ok hs

theorem status_ok_after_run {s s' : State} {ops : List Op} {rets : List Int}
    (h : run s ops = some (s', rets)) (hs : ∀ p ∈ s.ssp_processes, status_ok p.status) :
    ∀ p ∈ s'.ssp_processes, status_ok p.status := by
  induction ops generalizing s rets with
  | nil =>
    simp only [run, Option.some.injEq, Prod.mk.injEq] at h
    rw [← h.1]; exact hs
  | cons op ops ih =>
    obtain ⟨s1, r, rs, h1, h2, _⟩ := run_cons h
    exact ih h2 (status_ok_after_step h1 hs)

/-- In every reachable state the status of a tracked record is `-1` or in
`0 .. 255`. -/
theorem reachable_status_ok {s : State} (h : Reachable s) :
    ∀ p ∈ s.ssp_processes, status_ok p.status := by
  obtain ⟨ops, rets, hr⟩ := h
  exact status_ok_after_run hr (by intro p hp; cases hp)

theorem proc_at_mem (s : State) (ssp_id : Int) (h : ¬ invalid_id s ssp_id) :
    proc_at s ssp_id h ∈ s.ssp_processes := List.get_mem _ _ _

/-- The value `ssp_get_status` returns for a valid id whose record has a
status `-1` or in `0 .. 255` is again `-1` or in `0 .. 255`. -/
theorem ssp_get_status_valid_value {s s' : State} {ssp_id : Int} {a : WaitAnswer}
    {calls : List Syscall} {v : Int} (hv : ¬ invalid_id s ssp_id)
    (hs : status_ok (proc_at s ssp_id hv).status)
    (h : ssp_get_status s ssp_id a = Outcome.ret v s' calls) : status_ok v := by
  by_cases h2 : (proc_at s ssp_id hv).status = -1
  · rw [ssp_get_status_running a hv h2] at h
    by_cases h3 : a.result = 0
    · rw [if_pos h3] at h
      simp only [Outcome.ret.injEq] at h
      rw [← h.1]; exact Or.inl rfl
    rw [if_neg h3] at h
    by_cases h4 : a.result = -1
    · rw [if_pos h4] at h; simp at h
    rw [if_neg h4] at h
    simp only [Outcome.ret.injEq] at h
    rw [← h.1]
    exact status_ok_resolve _ _ (Or.inl rfl)
  · rw [ssp_get_status_known a hv h2] at h
    simp only [Outcome.ret.injEq] at h
    rw [← h.1]; exact hs

/-- C2. For an id out of range (`id < 0` or `id >= ssp_process_count`),
`ssp_get_status` returns `-2`, changes no record of either array and makes no
system call; in every reachable state a call of `ssp_get_status` that returns,
returns `-2` exactly when the id is out of range; and after any sequence of
calls from the state left by `ssp_init`, an id returned by one of its
`ssp_create` calls is never answered `-2`. -/
theorem get_status_invalid_iff :
    (∀ (s : State) (ssp_id : Int) (a : WaitAnswer),
        ssp_id < 0 ∨ ssp_id ≥ s.ssp_process_count →
        ssp_get_status s ssp_id a = Outcome.ret (-2) s []) ∧
    (∀ (s s' : State) (ssp_id : Int) (a : WaitAnswer) (v : Int) (calls : List Syscall),
        Reachable s → ssp_get_status s ssp_id a = Outcome.ret v s' calls →
        (v = -2 ↔ (ssp_id < 0 ∨ ssp_id ≥ s.ssp_process_count))) ∧
    (∀ (ops : List Op) (s s' : State) (rets : List Int) (ssp_id : Int) (a : WaitAnswer)
        (v : Int) (calls : List Syscall),
        run ssp_init_state ops = some (s, rets) → ssp_id ∈ rets →
        ssp_get_status s ssp_id a = Outcome.ret v s' calls → v ≠ -2) := by
  have key : ∀ (s s' : State) (ssp_id : Int) (a : WaitAnswer) (v : Int)
      (calls : List Syscall), Reachable s →
      ssp_get_status s ssp_id a = Outcome.ret v s' calls →
      (v = -2 ↔ (ssp_id < 0 ∨ ssp_id ≥ s.ssp_process_count)) := by
    intro s s' ssp_id a v calls hreach h
    by_cases hv : invalid_id s ssp_id
    · rw [ssp_get_status_invalid a hv] at h
      simp only [Outcome.ret.injEq] at h
      exact ⟨fun _ => hv, fun _ => h.1.symm⟩
    · have hok := ssp_get_status_valid_value hv
        (reachable_status_ok hreach _ (proc_at_mem s ssp_id hv)) h
      constructor
      · intro hv2
        rcases hok with hok | hok <;> omega
      · intro hinv
        exact absurd hinv hv
  refine ⟨fun s ssp_id a h => ssp_get_status_invalid a h, key, ?_⟩
  intro ops s s' rets ssp_id a v calls hrun hmem h hv2
  have hinv := (key s s' ssp_id a v calls ⟨ops, rets, hrun⟩ h).1 hv2
  obtain ⟨h1, h2⟩ := run_from_init hrun
  rw [h1] at hmem
  simp only [List.mem_map, List.mem_range, Int.ofNat_eq_coe] at hmem
  obtain ⟨i, hi, rfl⟩ := hmem
  rw [h2] at hinv
  omega

/-- C2 at concrete inputs: with no process created, id `0` is answered `-2`
without a system call; after one creation, id `0` is answered `-1`. -/
theorem get_status_invalid_iff_witness :
    ssp_get_status ssp_init_state 0 ⟨0, 0, 0⟩ = Outcome.ret (-2) ssp_init_state [] ∧
    (run ssp_init_state [Op.create "true" (okFork 100)] =
        some (⟨[⟨-1, 0, 100, "true"⟩], 10, [], 10⟩, [0]) ∧
      ssp_get_status ⟨[⟨-1, 0, 100, "true"⟩], 10, [], 10⟩ 0 ⟨0, 0, 0⟩ =
        Outcome.ret (-1) ⟨[⟨-1, 0, 100, "true"⟩], 10, [], 10⟩
          [Syscall.waitpid 100 WNOHANG] ∧
      (-1 : Int) ≠ -2) :=
  ⟨get_status_invalid_iff.1 ssp_init_state 0 ⟨0, 0, 0⟩ (Or.inr (by decide)),
   by decide, by decide,
   get_status_invalid_iff.2.2 [Op.create "true" (okFork 100)]
     ⟨[⟨-1, 0, 100, "true"⟩], 10, [], 10⟩ ⟨[⟨-1, 0, 100, "true"⟩], 10, [], 10⟩ [0] 0
     ⟨0, 0, 0⟩ (-1) [Syscall.waitpid 100 WNOHANG] (by decide) (by decide) (by decide)⟩

/-! ## Records by index -/

theorem tracked_eq_some {s : State} {ssp_id : Int} {p : ssp_process}
    (h : tracked s ssp_id = some p) :
    ∃ hv : ¬ invalid_id s ssp_id, proc_at s ssp_id hv = p := by
  unfold tracked at h
  by_cases hneg : ssp_id < 0
  · rw [if_pos hneg] at h; cases h
  · rw [if_neg hneg] at h
    obtain ⟨hlt, hget⟩ := List.getElem?_eq_some_iff.1 h
    have hv : ¬ invalid_id s ssp_id := by
      unfold invalid_id State.ssp_process_count
      omega
    refine ⟨hv, ?_⟩
    unfold proc_at
    rw [List.get_eq_getElem]
    exact hget

theorem tracked_of_valid {s : State} {ssp_id : Int} (hv : ¬ invalid_id s ssp_id) :
    tracked s ssp_id = some (proc_at s ssp_id hv) := by
  have hlt := toNat_lt_of_valid hv
  have hneg : ¬ ssp_id < 0 := fun h => hv (Or.inl h)
  unfold tracked proc_at
  rw [if_neg hneg, List.get_eq_getElem, List.getElem?_eq_getElem hlt]

theorem tracked_eq_none_iff (s : State) (ssp_id : Int) :
    tracked s ssp_id = none ↔ invalid_id s ssp_id := by
  constructor
  · intro h
    by_contra hv
    rw [tracked_of_valid hv] at h
    cases h
  · intro h
    cases ht : tracked s ssp_id with
    | none => rfl
    | some p =>
      obtain ⟨hv, _⟩ := tracked_eq_some ht
      exact absurd h hv

/-! ## C6: `ssp_get_status` on a resolved record -/

/-- C6. For a valid id whose record has a terminal status `v` (`v != -1`),
`ssp_get_status` returns `v`, makes no system call (whatever `waitpid` would
have answered) and leaves both arrays unchanged; hence any number of
consecutive calls all return `v` and leave the state unchanged. -/
theorem get_status_idempotent (s : State) (ssp_id : Int) (p : ssp_process)
    (hp : tracked s ssp_id = some p) (hterm : p.status ≠ -1) :
    (∀ a : WaitAnswer, ssp_get_status s ssp_id a = Outcome.ret p.status s []) ∧
    (∀ answers : List WaitAnswer,
        get_status_repeat s ssp_id answers =
          answers.map (fun _ => Outcome.ret p.status s [])) := by
  obtain ⟨hv, hproc⟩ := tracked_eq_some hp
  have h1 : ∀ a : WaitAnswer, ssp_get_status s ssp_id a = Outcome.ret p.status s [] := by
    intro a
    rw [ssp_get_status_known a hv (by rw [hproc]; exact hterm), hproc]
  refine ⟨h1, ?_⟩
  intro answers
  induction answers with
  | nil => rfl
  | cons a more ih =>
    simp only [get_status_repeat, h1 a, List.map_cons, ih]

/-- C6 at a concrete input: a record resolved to `137` is answered `137`
three times in a row whatever `waitpid` would have said. -/
theorem get_status_idempotent_witness :
    tracked ⟨[⟨137, 0, 100, "sh"⟩], 10, [], 10⟩ 0 = some ⟨137, 0, 100, "sh"⟩ ∧
    get_status_repeat ⟨[⟨137, 0, 100, "sh"⟩], 10, [], 10⟩ 0
        [⟨100, 0, 0⟩, ⟨-1, 0, ECHILD⟩, ⟨0, 0, 0⟩] =
      [Outcome.ret 137 ⟨[⟨137, 0, 100, "sh"⟩], 10, [], 10⟩ [],
       Outcome.ret 137 ⟨[⟨137, 0, 100, "sh"⟩], 10, [], 10⟩ [],
       Outcome.ret 137 ⟨[⟨137, 0, 100, "sh"⟩], 10, [], 10⟩ []] :=
  ⟨by decide,
   (get_status_idempotent ⟨[⟨137, 0, 100, "sh"⟩], 10, [], 10⟩ 0 ⟨137, 0, 100, "sh"⟩
      (by decide) (by decide)).2 [⟨100, 0, 0⟩, ⟨-1, 0, ECHILD⟩, ⟨0, 0, 0⟩]⟩

/-! ## C7: `ssp_send_signal` -/

/-- C7. If the id is out of range or the record's status is terminal,
`ssp_send_signal` returns without calling `kill` and without changing the
state; whenever `ssp_send_signal` returns, the state is unchanged and the only
system call it can have made is one `kill` on the pid of the running record
`ssp_id`; and when `kill` fails with `ESRCH` on a running record the call
returns normally. -/
theorem send_signal_frame :
    (∀ (s : State) (ssp_id signum : Int) (k : SysAnswer),
        ssp_id < 0 ∨ ssp_id ≥ s.ssp_process_count →
        ssp_send_signal s ssp_id signum k = Outcome.ret () s []) ∧
    (∀ (s : State) (ssp_id signum : Int) (k : SysAnswer) (p : ssp_process),
        tracked s ssp_id = some p → p.status ≠ -1 →
        ssp_send_signal s ssp_id signum k = Outcome.ret () s []) ∧
    (∀ (s s' : State) (ssp_id signum : Int) (k : SysAnswer) (calls : List Syscall),
        ssp_send_signal s ssp_id signum k = Outcome.ret () s' calls →
        s' = s ∧ (calls = [] ∨ ∃ p, tracked s ssp_id = some p ∧ p.status = -1 ∧
          calls = [Syscall.kill p.pid signum])) ∧
    (∀ (s : State) (ssp_id signum : Int) (k : SysAnswer) (p : ssp_process),
        tracked s ssp_id = some p → p.status = -1 →
        k.result ≠ -1 ∨ k.errno = ESRCH →
        ssp_send_signal s ssp_id signum k =
          Outcome.ret () s [Syscall.kill p.pid signum]) := by
  refine ⟨?_, ?_, ?_, ?_⟩
  · intro s ssp_id signum k h
    exact ssp_send_signal_invalid signum k h
  · intro s ssp_id signum k p hp hterm
    obtain ⟨hv, hproc⟩ := tracked_eq_some hp
    exact ssp_send_signal_known signum k hv (by rw [hproc]; exact hterm)
  · intro s s' ssp_id signum k calls h
    refine ⟨ssp_send_signal_ret h, ?_⟩
    by_cases h1 : invalid_id s ssp_id
    · rw [ssp_send_signal_invalid signum k h1] at h
      simp only [Outcome.ret.injEq] at h
      exact Or.inl h.2.2.symm
    by_cases h2 : (proc_at s ssp_id h1).status = -1
    · right
      refine ⟨proc_at s ssp_id h1, tracked_of_valid h1, h2, ?_⟩
      rw [ssp_send_signal_running signum k h1 h2] at h
      split_ifs at h <;> simp only [Outcome.ret.injEq] at h <;> exact h.2.2.symm
    · rw [ssp_send_signal_known signum k h1 h2] at h
      simp only [Outcome.ret.injEq] at h
      exact Or.inl h.2.2.symm
  · intro s ssp_id signum k p hp hrun hk
    obtain ⟨hv, hproc⟩ := tracked_eq_some hp
    rw [ssp_send_signal_running signum k hv (by rw [hproc]; exact hrun), hproc]
    rcases hk with hk | hk
    · rw [if_neg hk]
    · by_cases hr : k.result = -1
      · rw [if_pos hr, if_pos hk]
      · rw [if_neg hr]

/-- C7 at concrete inputs: an id out of range, a resolved record, and a
running record whose process is already gone (`kill` fails with `ESRCH`). -/
theorem send_signal_frame_witness :
    ssp_send_signal ⟨[⟨0, 0, 100, "true"⟩, ⟨-1, 1, 101, "sh"⟩], 10, [], 10⟩ 2 9 ⟨0, 0⟩ =
      Outcome.ret () ⟨[⟨0, 0, 100, "true"⟩, ⟨-1, 1, 101, "sh"⟩], 10, [], 10⟩ [] ∧
    ssp_send_signal ⟨[⟨0, 0, 100, "true"⟩, ⟨-1, 1, 101, "sh"⟩], 10, [], 10⟩ 0 9 ⟨0, 0⟩ =
      Outcome.ret () ⟨[⟨0, 0, 100, "true"⟩, ⟨-1, 1, 101, "sh"⟩], 10, [], 10⟩ [] ∧
    ssp_send_signal ⟨[⟨0, 0, 100, "true"⟩, ⟨-1, 1, 101, "sh"⟩], 10, [], 10⟩ 1 9
        ⟨-1, ESRCH⟩ =
      Outcome.ret () ⟨[⟨0, 0, 100, "true"⟩, ⟨-1, 1, 101, "sh"⟩], 10, [], 10⟩
        [Syscall.kill 101 9] :=
  ⟨send_signal_frame.1 _ 2 9 ⟨0, 0⟩ (Or.inr (by decide)),
   send_signal_frame.2.1 _ 0 9 ⟨0, 0⟩ ⟨0, 0, 100, "true"⟩ (by decide) (by decide),
   send_signal_frame.2.2.2 _ 1 9 ⟨-1, ESRCH⟩ ⟨-1, 1, 101, "sh"⟩ (by decide) (by decide)
     (Or.inr rfl)⟩

/-! ## The loop of `ssp_wait` -/

theorem wait_loop_nil (answers : List WaitAnswer) :
    wait_loop [] answers = Except.ok ([], []) := by
  cases answers <;> rfl

theorem wait_loop_cons_running {p : ssp_process} (ps : List ssp_process) (a : WaitAnswer)
    (more : List WaitAnswer) (hp : p.status = -1) (ha : a.result ≠ -1) :
    wait_loop (p :: ps) (a :: more) =
      match wait_loop ps more with
      | Except.error e => Except.error e
      | Except.ok (rest', calls) =>
        Except.ok ({ p with status := resolve a.wstatus (-1) } :: rest',
          Syscall.waitpid p.pid 0 :: calls) := by
  rw [wait_loop, if_pos hp]
  simp only [if_neg ha, hp]

theorem wait_loop_cons_known {p : ssp_process} (ps : List ssp_process)
    (answers : List WaitAnswer) (hp : p.status ≠ -1) :
    wait_loop (p :: ps) answers =
      match wait_loop ps answers with
      | Except.error e => Except.error e
      | Except.ok (rest', calls) => Except.ok (p :: rest', calls) := by
  simp only [wait_loop, if_neg hp]

/-- What the loop of `ssp_wait` does when it ends: it calls `waitpid` on the
running records in index order, leaves the resolved records alone and gives
each running record the status resolved from its own answer. -/
theorem wait_loop_ok {ps qs : List ssp_process} {answers : List WaitAnswer}
    {calls : List Syscall} (h : wait_loop ps answers = Except.ok (qs, calls)) :
    calls = (running ps).map (fun p => Syscall.waitpid p.pid 0) ∧
    (∀ (i : Nat) (p : ssp_process), ps[i]? = some p → p.status ≠ -1 → qs[i]? = some p) ∧
    (∀ (i : Nat) (p : ssp_process), ps[i]? = some p → p.status = -1 →
      ∃ a, answers[running_before ps i]? = some a ∧ a.result ≠ -1 ∧
        qs[i]? = some { p with status := resolve a.wstatus (-1) }) := by
  induction ps generalizing qs answers calls with
  | nil =>
    rw [wait_loop_nil] at h
    simp only [Except.ok.injEq, Prod.mk.injEq] at h
    obtain ⟨hq, hc⟩ := h
    subst hq hc
    exact ⟨rfl, by intro i p hp; simp at hp, by intro i p hp; simp at hp⟩
  | cons p0 ps ih =>
    by_cases hp0 : p0.status = -1
    · cases answers with
      | nil => simp [wait_loop, hp0] at h
      | cons a more =>
        by_cases ha : a.result = -1
        · simp [wait_loop, hp0, ha] at h
        rw [wait_loop_cons_running ps a more hp0 ha] at h
        cases hrec : wait_loop ps more with
        | error e => rw [hrec] at h; simp at h
        | ok r =>
          obtain ⟨rest, c⟩ := r
          rw [hrec] at h
          simp only [Except.ok.injEq, Prod.mk.injEq] at h
          obtain ⟨i1, i2, i3⟩ := ih hrec
          obtain ⟨hq, hc⟩ := h
          subst hq hc
          refine ⟨by simp [running, hp0, i1], ?_, ?_⟩
          · intro i p hp hterm
            cases i with
            | zero =>
              simp only [List.getElem?_cons_zero, Option.some.injEq] at hp
              rw [← hp] at hterm
              exact absurd hp0 hterm
            | succ i =>
              simp only [List.getElem?_cons_succ] at hp ⊢
              exact i2 i p hp hterm
          · intro i p hp hrun
            cases i with
            | zero =>
              simp only [List.getElem?_cons_zero, Option.some.injEq] at hp
              refine ⟨a, by simp [running_before], ha, ?_⟩
              rw [← hp]
              simp
            | succ i =>
              simp only [List.getElem?_cons_succ] at hp ⊢
              obtain ⟨a', ha1, ha2, ha3⟩ := i3 i p hp hrun
              refine ⟨a', ?_, ha2, ha3⟩
              simp only [running_before, if_pos hp0]
              rw [Nat.add_comm, List.getElem?_cons_succ]
              exact ha1
    · rw [wait_loop_cons_known ps answers hp0] at h
      cases hrec : wait_loop ps answers with
      | error e => rw [hrec] at h; simp at h
      | ok r =>
        obtain ⟨rest, c⟩ := r
        rw [hrec] at h
        simp only [Except.ok.injEq, Prod.mk.injEq] at h
        obtain ⟨i1, i2, i3⟩ := ih hrec
        obtain ⟨hq, hc⟩ := h
        subst hq hc
        refine ⟨by simp [running, hp0, i1], ?_, ?_⟩
        · intro i p hp hterm
          cases i with
          | zero =>
            simp only [List.getElem?_cons_zero, Option.some.injEq] at hp ⊢
            exact hp
          | succ i =>
            simp only [List.getElem?_cons_succ] at hp ⊢
            exact i2 i p hp hterm
        · intro i p hp hrun
          cases i with
          | zero =>
            simp only [List.getElem?_cons_zero, Option.some.injEq] at hp
            rw [← hp] at hrun
            exact absurd hrun hp0
          | succ i =>
            simp only [List.getElem?_cons_succ] at hp ⊢
            obtain ⟨a', ha1, ha2, ha3⟩ := i3 i p hp hrun
            refine ⟨a', ?_, ha2, ha3⟩
            simp only [running_before, if_neg hp0, Nat.zero_add]
            exact ha1

/-- The loop of `ssp_wait` ends when every `waitpid` it makes gets an answer
other than `-1`. -/
theorem wait_loop_total (ps : List ssp_process) (answers : List WaitAnswer)
    (hlen : (running ps).length ≤ answers.length)
    (hres : ∀ a ∈ answers, a.result ≠ -1) :
    ∃ qs calls, wait_loop ps answers = Except.ok (qs, calls) := by
  induction ps generalizing answers with
  | nil => exact ⟨[], [], wait_loop_nil answers⟩
  | cons p0 ps ih =>
    by_cases hp0 : p0.status = -1
    · cases answers with
      | nil => simp [running, hp0] at hlen
      | cons a more =>
        have ha := hres a (List.mem_cons_self _ _)
        have hlen' : (running ps).length ≤ more.length := by
          simp [running, hp0] at hlen
          exact hlen
        obtain ⟨qs, calls, hq⟩ := ih more hlen' (fun x hx => hres x (List.mem_cons_of_mem _ hx))
        rw [wait_loop_cons_running ps a more hp0 ha, hq]
        exact ⟨_, _, rfl⟩
    · have hlen' : (running ps).length ≤ answers.length := by
        simp [running, hp0] at hlen
        exact hlen
      obtain ⟨qs, calls, hq⟩ := ih answers hlen' hres
      rw [wait_loop_cons_known ps answers hp0, hq]
      exact ⟨_, _, rfl⟩

/-- When every answer reports a termination, the loop of `ssp_wait` leaves
no record running. -/
theorem wait_loop_all_terminal {ps qs : List ssp_process} {answers : List WaitAnswer}
    {calls : List Syscall} (h : wait_loop ps answers = Except.ok (qs, calls))
    (hterm : ∀ a ∈ answers, terminated a.wstatus) : ∀ q ∈ qs, q.status ≠ -1 := by
  obtain ⟨_, h2, h3⟩ := wait_loop_ok h
  have hlen := (Evolves.wait_loop ps answers qs calls h).length_eq
  intro q hq
  obtain ⟨i, hi, hget⟩ := List.getElem_of_mem hq
  have hi' : i < ps.length := by omega
  have hps : ps[i]? = some ps[i] := List.getElem?_eq_getElem hi'
  have hqs : qs[i]? = some q := by rw [List.getElem?_eq_getElem hi, hget]
  by_cases hrun : ps[i].status = -1
  · obtain ⟨a, ha1, _, ha3⟩ := h3 i _ hps hrun
    rw [hqs] at ha3
    simp only [Option.some.injEq] at ha3
    rw [ha3]
    exact resolve_ne_running _ _ (hterm a (List.getElem?_mem ha1))
  · have := h2 i _ hps hrun
    rw [hqs] at this
    simp only [Option.some.injEq] at this
    rw [this]; exact hrun

/-! ## C3: the status stored for an exit code or a signal -/

theorem tracked_iff (s : State) (ssp_id : Int) (p : ssp_process) :
    tracked s ssp_id = some p ↔ 0 ≤ ssp_id ∧ s.ssp_processes[ssp_id.toNat]? = some p := by
  unfold tracked
  by_cases h : ssp_id < 0
  · rw [if_pos h]
    constructor
    · intro h'; cases h'
    · intro h'; omega
  · rw [if_neg h]
    constructor
    · intro h'; exact ⟨by omega, h'⟩
    · intro h'; exact h'.2

theorem getElem?_set_status (ps : List ssp_process) (i : Nat) (v : Int) (p : ssp_process)
    (h : ps[i]? = some p) : (set_status ps i v)[i]? = some { p with status := v } := by
  unfold set_status
  rw [List.getElem?_modify, h]
  simp

/-- The status `ssp_get_status` stores in a running record when `waitpid`
reports a change of state. -/
theorem ssp_get_status_resolves {s : State} {ssp_id : Int} {p : ssp_process}
    (hp : tracked s ssp_id = some p) (hrun : p.status = -1) (a : WaitAnswer)
    (h0 : a.result ≠ 0) (h1 : a.result ≠ -1) :
    ∃ s', ssp_get_status s ssp_id a =
        Outcome.ret (resolve a.wstatus (-1)) s' [Syscall.waitpid p.pid WNOHANG] ∧
      tracked s' ssp_id = some { p with status := resolve a.wstatus (-1) } := by
  obtain ⟨hv, hproc⟩ := tracked_eq_some hp
  rw [ssp_get_status_running a hv (by rw [hproc]; exact hrun), if_neg h0, if_neg h1, hproc]
  refine ⟨_, rfl, ?_⟩
  obtain ⟨hnn, hget⟩ := (tracked_iff s ssp_id p).1 hp
  exact (tracked_iff _ ssp_id _).2 ⟨hnn, getElem?_set_status _ _ _ _ hget⟩

/-- C3. For a tracked record `ssp_id` whose status is running: when the
`waitpid` of `ssp_get_status` reports a normal exit with code `C`, the call
stores and returns `C`; when it reports a termination by signal `S`, the call
stores and returns `S + 128`; the value is in `0 .. 255` in both cases; and
when `ssp_wait` returns, the status it stored in the record is `C`
(respectively `S + 128`) for the answer of the `waitpid` it made for that
record. -/
theorem resolved_status_mapping (s : State) (ssp_id : Int) (p : ssp_process)
    (hp : tracked s ssp_id = some p) (hrun : p.status = -1) :
    (∀ (a : WaitAnswer) (C : Nat), a.result ≠ 0 → a.result ≠ -1 →
        WIFEXITED a.wstatus = true → WEXITSTATUS a.wstatus = C →
        ∃ s', ssp_get_status s ssp_id a =
            Outcome.ret (C : Int) s' [Syscall.waitpid p.pid WNOHANG] ∧
          tracked s' ssp_id = some { p with status := (C : Int) } ∧ C ≤ 255) ∧
    (∀ (a : WaitAnswer) (S : Nat), a.result ≠ 0 → a.result ≠ -1 →
        WIFSIGNALED a.wstatus = true → WTERMSIG a.wstatus = S →
        ∃ s', ssp_get_status s ssp_id a =
            Outcome.ret ((S : Int) + 128) s' [Syscall.waitpid p.pid WNOHANG] ∧
          tracked s' ssp_id = some { p with status := (S : Int) + 128 } ∧
          1 ≤ S ∧ S + 128 ≤ 255) ∧
    (∀ (answers : List WaitAnswer) (s' : State) (calls : List Syscall),
        ssp_wait s answers = Outcome.ret () s' calls →
        ∃ a, answers[running_before s.ssp_processes ssp_id.toNat]? = some a ∧
          (∀ C : Nat, WIFEXITED a.wstatus = true → WEXITSTATUS a.wstatus = C →
            tracked s' ssp_id = some { p with status := (C : Int) } ∧ C ≤ 255) ∧
          (∀ S : Nat, WIFSIGNALED a.wstatus = true → WTERMSIG a.wstatus = S →
            tracked s' ssp_id = some { p with status := (S : Int) + 128 } ∧
            1 ≤ S ∧ S + 128 ≤ 255)) := by
  refine ⟨?_, ?_, ?_⟩
  · intro a C h0 h1 hex hC
    obtain ⟨s', hs', ht⟩ := ssp_get_status_resolves hp hrun a h0 h1
    rw [resolve_exited _ _ hex, hC] at hs' ht
    exact ⟨s', hs', ht, by rw [← hC]; exact WEXITSTATUS_le _⟩
  · intro a S h0 h1 hsig hS
    obtain ⟨s', hs', ht⟩ := ssp_get_status_resolves hp hrun a h0 h1
    rw [resolve_signaled _ _ hsig, hS] at hs' ht
    have := (WIFSIGNALED_iff a.wstatus).1 hsig
    exact ⟨s', hs', ht, by omega, by omega⟩
  · intro answers s' calls h
    obtain ⟨hloop, _⟩ := ssp_wait_ret h
    obtain ⟨hnn, hget⟩ := (tracked_iff s ssp_id p).1 hp
    obtain ⟨a, ha1, _, ha3⟩ := (wait_loop_ok hloop).2.2 _ p hget hrun
    refine ⟨a, ha1, ?_, ?_⟩
    · intro C hex hC
      rw [resolve_exited _ _ hex, hC] at ha3
      exact ⟨(tracked_iff _ _ _).2 ⟨hnn, ha3⟩, by rw [← hC]; exact WEXITSTATUS_le _⟩
    · intro S hsig hS
      rw [resolve_signaled _ _ hsig, hS] at ha3
      have := (WIFSIGNALED_iff a.wstatus).1 hsig
      exact ⟨(tracked_iff _ _ _).2 ⟨hnn, ha3⟩, by omega, by omega⟩

/-- C3 at a concrete input: a running record whose process was killed by
signal 9 is answered `137`, and the record keeps `137`. -/
theorem resolved_status_mapping_witness :
    tracked ⟨[⟨0, 0, 100, "true"⟩, ⟨-1, 1, 101, "sh"⟩], 10, [], 10⟩ 1 =
      some ⟨-1, 1, 101, "sh"⟩ ∧
    WIFSIGNALED 9 = true ∧ WTERMSIG 9 = 9 ∧
    ∃ s', ssp_get_status ⟨[⟨0, 0, 100, "true"⟩, ⟨-1, 1, 101, "sh"⟩], 10, [], 10⟩ 1
          ⟨101, 9, 0⟩ = Outcome.ret 137 s' [Syscall.waitpid 101 WNOHANG] ∧
      tracked s' 1 = some ⟨137, 1, 101, "sh"⟩ ∧ 1 ≤ 9 ∧ 9 + 128 ≤ 255 :=
  ⟨by decide, by decide, by decide,
   (resolved_status_mapping ⟨[⟨0, 0, 100, "true"⟩, ⟨-1, 1, 101, "sh"⟩], 10, [], 10⟩ 1
      ⟨-1, 1, 101, "sh"⟩ (by decide) (by decide)).2.1 ⟨101, 9, 0⟩ 9
      (by decide) (by decide) (by decide) (by decide)⟩

/-! ## C4: the states `ssp_wait` returns in -/

/-- C4 as stated fails: a `waitpid (pid, &status, 0)` that reports a stop
of a traced child (status `0x137f`: stopped by signal 19) makes `ssp_wait`
return with the record still running. -/
theorem wait_returns_with_running_record :
    ssp_wait ⟨[⟨-1, 0, 100, "sh"⟩], 10, [], 10⟩ [⟨100, 0x137f, 0⟩] =
      Outcome.ret () ⟨[⟨-1, 0, 100, "sh"⟩], 10, [], 10⟩ [Syscall.waitpid 100 0] ∧
    tracked ⟨[⟨-1, 0, 100, "sh"⟩], 10, [], 10⟩ 0 = some ⟨-1, 0, 100, "sh"⟩ := by
  decide

/-- C4, amended. When every wait result the operating system supplies
reports a termination (a normal exit or a kill by a signal) and `ssp_wait`
returns, no tracked record has status `-1`; the count is unchanged, the
records that were terminal before the call keep their status, `waitpid` was
called on the running records only (in index order) and the orphans are
untouched. Moreover `ssp_wait` does return when each running record gets an
answer other than `-1`. -/
theorem wait_leaves_no_running :
    (∀ (s s' : State) (answers : List WaitAnswer) (calls : List Syscall),
        ssp_wait s answers = Outcome.ret () s' calls →
        (∀ a ∈ answers, terminated a.wstatus) →
        (∀ q ∈ s'.ssp_processes, q.status ≠ -1) ∧
        s'.ssp_process_count = s.ssp_process_count ∧
        (∀ (i : Int) (p : ssp_process), tracked s i = some p → p.status ≠ -1 →
          tracked s' i = some p) ∧
        calls = (running s.ssp_processes).map (fun p => Syscall.waitpid p.pid 0) ∧
        s'.ssp_orphans = s.ssp_orphans) ∧
    (∀ (s : State) (answers : List WaitAnswer),
        (running s.ssp_processes).length ≤ answers.length →
        (∀ a ∈ answers, a.result ≠ -1) →
        ∃ s' calls, ssp_wait s answers = Outcome.ret () s' calls) := by
  constructor
  · intro s s' answers calls h hterm
    obtain ⟨hloop, horph, _, _⟩ := ssp_wait_ret h
    obtain ⟨hcalls, hkeep, _⟩ := wait_loop_ok hloop
    refine ⟨wait_loop_all_terminal hloop hterm,
      count_of_evolves (Evolves.wait_loop _ _ _ _ hloop), ?_, hcalls, horph⟩
    intro i p hp hknown
    obtain ⟨hnn, hget⟩ := (tracked_iff s i p).1 hp
    exact (tracked_iff s' i p).2 ⟨hnn, hkeep _ p hget hknown⟩
  · intro s answers hlen hres
    obtain ⟨qs, calls, hq⟩ := wait_loop_total s.ssp_processes answers hlen hres
    refine ⟨{ s with ssp_processes := qs }, calls, ?_⟩
    unfold ssp_wait
    rw [hq]

/-- C4, amended, at a concrete input: one resolved record and two running
ones, which exit with code 3 and die of signal 9. -/
theorem wait_leaves_no_running_witness :
    ssp_wait ⟨[⟨-1, 0, 100, "a"⟩, ⟨7, 1, 101, "b"⟩, ⟨-1, 2, 102, "c"⟩], 10, [], 10⟩
        [⟨100, 0x300, 0⟩, ⟨102, 9, 0⟩] =
      Outcome.ret ()
        ⟨[⟨3, 0, 100, "a"⟩, ⟨7, 1, 101, "b"⟩, ⟨137, 2, 102, "c"⟩], 10, [], 10⟩
        [Syscall.waitpid 100 0, Syscall.waitpid 102 0] ∧
    (∀ q ∈ [(⟨3, 0, 100, "a"⟩ : ssp_process), ⟨7, 1, 101, "b"⟩, ⟨137, 2, 102, "c"⟩],
      q.status ≠ -1) :=
  ⟨by decide,
   (wait_leaves_no_running.1
      ⟨[⟨-1, 0, 100, "a"⟩, ⟨7, 1, 101, "b"⟩, ⟨-1, 2, 102, "c"⟩], 10, [], 10⟩
      ⟨[⟨3, 0, 100, "a"⟩, ⟨7, 1, 101, "b"⟩, ⟨137, 2, 102, "c"⟩], 10, [], 10⟩
      [⟨100, 0x300, 0⟩, ⟨102, 9, 0⟩] [Syscall.waitpid 100 0, Syscall.waitpid 102 0]
      (by decide) (by decide)).1⟩

/-! ## C9: the record of an orphan -/

theorem scan_tracked_no_match (result : Int) (w : Nat) (ps : List ssp_process)
    (h : ∀ p ∈ ps, p.pid ≠ result) : scan_tracked result w ps = (false, ps) := by
  induction ps with
  | nil => rfl
  | cons p ps ih =>
    have hp := h p (List.mem_cons_self _ _)
    have := ih (fun q hq => h q (List.mem_cons_of_mem _ hq))
    simp only [scan_tracked, if_neg hp, this]

/-- The state after the branch `if (!found)` of `handle_signal`. -/
theorem add_orphan_total (s : State) (a : ReapAnswer)
    (hrealloc : s.ssp_orphans_count = s.maxSizeOrphans → a.realloc = AllocAnswer.block) :
    add_orphan s a = Outcome.ret ()
      { s with
        ssp_orphans := s.ssp_orphans ++
          [{ status := resolve a.wait.wstatus a.slot_status,
             ssp_pid := s.ssp_orphans_count, pid := a.wait.result, name := "<unknown>" }],
        maxSizeOrphans :=
          if s.ssp_orphans_count = s.maxSizeOrphans then s.maxSizeOrphans * 2
          else s.maxSizeOrphans }
      (if s.ssp_orphans_count = s.maxSizeOrphans then
        [Syscall.realloc (s.maxSizeOrphans * 2)] else []) := by
  unfold add_orphan
  by_cases hfull : s.ssp_orphans_count = s.maxSizeOrphans
  · simp only [if_pos hfull, hrealloc hfull]
  · simp only [if_neg hfull]

/-- C9 as stated fails: when the `waitpid` of `handle_signal` reports a stop
of a traced child (status `0x137f`, neither exited nor signaled) for a pid that
matches no tracked record, the handler appends an orphan whose status is
whatever the fresh slot held (here `-1`), not a terminal status given by the
exit/signal mapping. -/
theorem orphan_with_unresolved_status :
    handle_signal ⟨[⟨-1, 0, 100, "sh"⟩], 10, [], 10⟩ SIGCHLD
        [⟨⟨55, 0x137f, 0⟩, AllocAnswer.block, -1⟩, noMore] =
      Outcome.ret () ⟨[⟨-1, 0, 100, "sh"⟩], 10, [⟨-1, 0, 55, "<unknown>"⟩], 10⟩
        [Syscall.waitpid (-1) WNOHANG, Syscall.waitpid (-1) WNOHANG] ∧
    WIFEXITED 0x137f = false ∧ WIFSIGNALED 0x137f = false := by
  decide

/-- C9, amended. When the pid `handle_signal` reaps matches no tracked record
and the wait status reports a termination (a normal exit or a kill by a
signal), a turn of the loop that returns has appended exactly one record to
the orphans: its `pid` is the reaped pid, its name `"<unknown>"`, its `ssp_pid`
the orphan count before the append, and its status is terminal, in `0 .. 255`:
the exit code `C` of a child that exited, or `S + 128` for a child killed by
signal `S`; the earlier orphans are unchanged, the orphan count grows by one
and the tracked array (count and records) is unchanged. The turn does return
unless the `realloc` of a full orphan array fails, and an invocation of
`handle_signal` that reaps this one child returns in that state. -/
theorem orphan_appended (s : State) (a : ReapAnswer)
    (hnew : ∀ p ∈ s.ssp_processes, p.pid ≠ a.wait.result)
    (hterm : terminated a.wait.wstatus) :
    (∀ (s' : State) (calls : List Syscall), reap_child s a = Outcome.ret () s' calls →
      s'.ssp_orphans = s.ssp_orphans ++
        [{ status := resolve a.wait.wstatus a.slot_status,
           ssp_pid := s.ssp_orphans_count, pid := a.wait.result, name := "<unknown>" }] ∧
      s'.ssp_orphans_count = s.ssp_orphans_count + 1 ∧
      s'.ssp_processes = s.ssp_processes ∧ s'.maxSize = s.maxSize) ∧
    ((s.ssp_orphans_count = s.maxSizeOrphans → a.realloc = AllocAnswer.block) →
      reap_child s a = Outcome.ret ()
        { ssp_processes := s.ssp_processes,
          maxSize := s.maxSize,
          ssp_orphans := s.ssp_orphans ++
            [{ status := resolve a.wait.wstatus a.slot_status,
               ssp_pid := s.ssp_orphans_count, pid := a.wait.result,
               name := "<unknown>" }],
          maxSizeOrphans :=
            if s.ssp_orphans_count = s.maxSizeOrphans then s.maxSizeOrphans * 2
            else s.maxSizeOrphans }
        (if s.ssp_orphans_count = s.maxSizeOrphans then
          [Syscall.realloc (s.maxSizeOrphans * 2)] else [])) ∧
    (0 ≤ resolve a.wait.wstatus a.slot_status ∧
      resolve a.wait.wstatus a.slot_status ≤ 255) ∧
    ((WIFEXITED a.wait.wstatus = true ∧
        resolve a.wait.wstatus a.slot_status = (WEXITSTATUS a.wait.wstatus : Int)) ∨
      (WIFSIGNALED a.wait.wstatus = true ∧
        resolve a.wait.wstatus a.slot_status = (WTERMSIG a.wait.wstatus : Int) + 128)) ∧
    (∀ last : ReapAnswer, a.wait.result > 0 →
      (s.ssp_orphans_count = s.maxSizeOrphans → a.realloc = AllocAnswer.block) →
      last.wait.result ≤ 0 → (last.wait.result = -1 → last.wait.errno = ECHILD) →
      handle_signal s SIGCHLD [a, last] = Outcome.ret ()
        { ssp_processes := s.ssp_processes,
          maxSize := s.maxSize,
          ssp_orphans := s.ssp_orphans ++
            [{ status := resolve a.wait.wstatus a.slot_status,
               ssp_pid := s.ssp_orphans_count, pid := a.wait.result,
               name := "<unknown>" }],
          maxSizeOrphans :=
            if s.ssp_orphans_count = s.maxSizeOrphans then s.maxSizeOrphans * 2
            else s.maxSizeOrphans }
        ([Syscall.waitpid (-1) WNOHANG] ++
          (if s.ssp_orphans_count = s.maxSizeOrphans then
            [Syscall.realloc (s.maxSizeOrphans * 2)] else []) ++
          [Syscall.waitpid (-1) WNOHANG])) := by
  have hra : reap_child s a = add_orphan s a := by
    unfold reap_child
    rw [scan_tracked_no_match _ _ _ hnew]
    simp
  refine ⟨?_, ?_, resolve_range _ _ hterm, ?_, ?_⟩
  · intro s' calls h
    rw [hra] at h
    obtain ⟨h1, h2, h3⟩ := add_orphan_ret h
    refine ⟨h3, ?_, h1, h2⟩
    unfold State.ssp_orphans_count
    rw [h3]
    simp
  · intro hrealloc
    exact hra.trans (add_orphan_total s a hrealloc)
  · rcases hterm with hex | hsig
    · exact Or.inl ⟨hex, resolve_exited _ _ hex⟩
    · exact Or.inr ⟨hsig, resolve_signaled _ _ hsig⟩
  · intro last hpos hrealloc hlast hech
    have hreap := hra.trans (add_orphan_total s a hrealloc)
    have h1 : ¬ last.wait.result > 0 := by omega
    have h2 : ¬ (last.wait.result = -1 ∧ last.wait.errno ≠ ECHILD) := by
      intro hh; exact hh.2 (hech hh.1)
    simp only [handle_signal, if_true, drain, if_pos hpos, hreap, if_neg h1, if_neg h2,
      List.nil_append]

/-- C9, amended, at a concrete input: with one tracked process (pid 100)
and one earlier orphan, reaping pid 55, killed by signal 15, appends the
orphan record `143 / 1 / 55 / "<unknown>"`. -/
theorem orphan_appended_witness :
    (∀ p ∈ [(⟨-1, 0, 100, "sh"⟩ : ssp_process)], p.pid ≠ 55) ∧ terminated 15 ∧
    reap_child ⟨[⟨-1, 0, 100, "sh"⟩], 10, [⟨0, 0, 54, "<unknown>"⟩], 10⟩ (reaped 55 15) =
      Outcome.ret ()
        ⟨[⟨-1, 0, 100, "sh"⟩], 10, [⟨0, 0, 54, "<unknown>"⟩, ⟨143, 1, 55, "<unknown>"⟩], 10⟩
        [] :=
  ⟨by decide, by decide,
   (orphan_appended ⟨[⟨-1, 0, 100, "sh"⟩], 10, [⟨0, 0, 54, "<unknown>"⟩], 10⟩
      (reaped 55 15) (by decide) (by decide)).2.1 (by decide)⟩

/-! ## C10: the table `ssp_print` writes -/

theorem join_cons (x : String) (xs : List String) :
    String.join (x :: xs) = x ++ String.join xs := by
  apply String.ext
  simp [String.join_eq, String.data_append]

theorem print_rows_eq (w : Nat) (out : String) (ps : List ssp_process) :
    print_rows w out ps = out ++ String.join (ps.map (print_row w)) := by
  induction ps generalizing out with
  | nil => simp [print_rows, String.join]
  | cons p ps ih =>
    rw [print_rows, ih, List.map_cons, join_cons, String.append_assoc]

theorem foldr_max_start (m n : Nat) (xs : List Nat) :
    xs.foldr max (max m n) = max n (xs.foldr max m) := by
  induction xs with
  | nil => simp [Nat.max_comm]
  | cons x xs ih =>
    simp only [List.foldr_cons, ih]
    omega

theorem longest_eq (m : Nat) (ps : List ssp_process) :
    longest m ps = (ps.map (fun p => strlen p.name)).foldr max m := by
  induction ps generalizing m with
  | nil => rfl
  | cons p ps ih =>
    unfold longest
    by_cases h : strlen p.name > m
    · rw [if_pos h, ih, List.map_cons, List.foldr_cons]
      have := foldr_max_start m (strlen p.name) (ps.map (fun p => strlen p.name))
      rw [← this, Nat.max_eq_right (Nat.le_of_lt h)]
    · rw [if_neg h, ih, List.map_cons, List.foldr_cons]
      have := foldr_max_start m (strlen p.name) (ps.map (fun p => strlen p.name))
      rw [← this, Nat.max_eq_left (Nat.le_of_not_gt h)]

theorem longest_append (m : Nat) (ps qs : List ssp_process) :
    longest (longest m ps) qs = longest m (ps ++ qs) := by
  induction ps generalizing m with
  | nil => rfl
  | cons p ps ih =>
    simp only [List.cons_append, longest]
    split_ifs <;> exact ih _

theorem le_foldr_max (m : Nat) (xs : List Nat) :
    m ≤ xs.foldr max m ∧ ∀ x ∈ xs, x ≤ xs.foldr max m := by
  induction xs with
  | nil => exact ⟨Nat.le_refl _, by intro x hx; cases hx⟩
  | cons y ys ih =>
    simp only [List.foldr_cons]
    refine ⟨by have := ih.1; omega, ?_⟩
    intro x hx
    rcases List.mem_cons.1 hx with rfl | hx
    · omega
    · have := ih.2 x hx
      omega

theorem length_fmt_left (w : Nat) (str : String) (h : strlen str ≤ w) :
    (fmt_left w str).length = w := by
  unfold fmt_left
  unfold strlen at h ⊢
  simp only [String.length_append, String.length_mk, List.length_replicate]
  omega

theorem name_le_cmd_width (s : State) (p : ssp_process)
    (hp : p ∈ s.ssp_processes ++ s.ssp_orphans) : strlen p.name ≤ cmd_width s :=
  (le_foldr_max 3 _).2 _ (List.mem_map_of_mem _ hp)

/-- C10. `ssp_print` modifies no record. The width of the CMD column is the
larger of 3 and the length of the longest name among the tracked records and
the orphans. The text written is the header row followed by one row per
tracked record in index order and then one row per orphan in index order. The
header is `PID` right-aligned in 7 columns, `CMD` padded to the width, and
`STATUS`; in each row the pid is right-aligned in at least 7 columns and the
name fills exactly the width. With no tracked record and no orphan the text is
the header row alone, with CMD width 3. -/
theorem print_renders_table (s : State) :
    (ssp_print s).1 = s ∧
    longest (longest (strlen "CMD") s.ssp_processes) s.ssp_orphans = cmd_width s ∧
    (ssp_print s).2 =
      String.join (print_header (cmd_width s) ::
        ((s.ssp_processes.map (print_row (cmd_width s))) ++
          (s.ssp_orphans.map (print_row (cmd_width s))))) ∧
    print_header (cmd_width s) =
      "    PID" ++ " " ++ ("CMD" ++ String.mk (List.replicate (cmd_width s - 3) ' ')) ++
        " " ++ "STATUS" ++ "\n" ∧
    ("CMD" ++ String.mk (List.replicate (cmd_width s - 3) ' ')).length = cmd_width s ∧
    (∀ p ∈ s.ssp_processes ++ s.ssp_orphans,
      print_row (cmd_width s) p =
        fmt_right 7 (fmt_d p.pid) ++ " " ++
          (p.name ++ String.mk (List.replicate (cmd_width s - p.name.length) ' ')) ++
          " " ++ fmt_d p.status ++ "\n" ∧
      (p.name ++ String.mk (List.replicate (cmd_width s - p.name.length) ' ')).length =
        cmd_width s ∧
      7 ≤ (fmt_right 7 (fmt_d p.pid)).length) ∧
    (s.ssp_processes = [] → s.ssp_orphans = [] →
      cmd_width s = 3 ∧ (ssp_print s).2 = "    PID CMD STATUS\n") := by
  have hw : longest (longest (strlen "CMD") s.ssp_processes) s.ssp_orphans = cmd_width s := by
    rw [longest_append, longest_eq]
    rfl
  refine ⟨rfl, hw, ?_, rfl, ?_, ?_, ?_⟩
  · simp only [ssp_print, hw]
    rw [print_rows_eq, print_rows_eq, join_cons, ← List.map_append]
    apply String.ext
    simp [String.join_eq, String.data_append]
  · have h3 : strlen "CMD" ≤ cmd_width s := (le_foldr_max 3 _).1
    exact length_fmt_left _ "CMD" h3
  · intro p hp
    refine ⟨rfl, length_fmt_left _ p.name (name_le_cmd_width s p hp), ?_⟩
    unfold fmt_right strlen
    simp only [String.length_append, String.length_mk, List.length_replicate]
    omega
  · intro h1 h2
    have hc : cmd_width s = 3 := by
      unfold cmd_width
      rw [h1, h2]
      rfl
    refine ⟨hc, ?_⟩
    simp only [ssp_print, hw, hc, h1, h2, print_rows]
    decide

/-- C10 at concrete inputs: the empty table, and a table with one tracked
record and one orphan. -/
theorem print_renders_table_witness :
    (cmd_width ssp_init_state = 3 ∧
      (ssp_print ssp_init_state).2 = "    PID CMD STATUS\n") ∧
    (ssp_print ⟨[⟨-1, 0, 1234, "sleep"⟩], 10, [⟨137, 0, 99, "<unknown>"⟩], 10⟩).2 =
      String.join
        [print_header 9, print_row 9 ⟨-1, 0, 1234, "sleep"⟩,
         print_row 9 ⟨137, 0, 99, "<unknown>"⟩] ∧
    String.join
        [print_header 9, print_row 9 ⟨-1, 0, 1234, "sleep"⟩,
         print_row 9 ⟨137, 0, 99, "<unknown>"⟩] =
      "    PID CMD       STATUS\n   1234 sleep     -1\n     99 <unknown> 137\n" :=
  ⟨(print_renders_table ssp_init_state).2.2.2.2.2.2 rfl rfl,
   (print_renders_table
      ⟨[⟨-1, 0, 1234, "sleep"⟩], 10, [⟨137, 0, 99, "<unknown>"⟩], 10⟩).2.2.1,
   by decide⟩

/-! ## C5: a resolved status is written once -/

/-- The calls of the API never change a resolved status: after
`ssp_create`, `ssp_get_status`, `ssp_send_signal` or `ssp_wait`, a record
whose status was terminal is the same record. -/
theorem api_keeps_terminal_status (s s' : State) (op : Op) (r : Option Int)
    (hop : ∀ signum answers, op ≠ Op.signal signum answers)
    (h : step s op = some (s', r)) (i : Int) (p : ssp_process)
    (hp : tracked s i = some p) (hterm : p.status ≠ -1) : tracked s' i = some p := by
  obtain ⟨hnn, hget⟩ := (tracked_iff s i p).1 hp
  refine (tracked_iff s' i p).2 ⟨hnn, ?_⟩
  cases op with
  | create argv0 env =>
    simp only [step] at h
    cases hc : ssp_create s argv0 env with
    | ret v s1 calls =>
      rw [hc] at h
      simp only [Option.some.injEq, Prod.mk.injEq] at h
      rw [← h.1, (ssp_create_ret hc).2.1]
      rw [List.getElem?_append_left (List.getElem?_eq_some_iff.1 hget).1]
      exact hget
    | exit err => rw [hc] at h; simp at h
    | exec => rw [hc] at h; simp at h
    | pending => rw [hc] at h; simp at h
  | get_status ssp_id a =>
    simp only [step] at h
    cases hc : ssp_get_status s ssp_id a with
    | ret v s1 calls =>
      rw [hc] at h
      simp only [Option.some.injEq, Prod.mk.injEq] at h
      rw [← h.1]
      by_cases h1 : invalid_id s ssp_id
      · rw [ssp_get_status_invalid a h1] at hc
        simp only [Outcome.ret.injEq] at hc
        rw [← hc.2.1]; exact hget
      by_cases h2 : (proc_at s ssp_id h1).status = -1
      · rw [ssp_get_status_running a h1 h2] at hc
        by_cases h3 : a.result = 0
        · rw [if_pos h3] at hc
          simp only [Outcome.ret.injEq] at hc
          rw [← hc.2.1]; exact hget
        rw [if_neg h3] at hc
        by_cases h4 : a.result = -1
        · rw [if_pos h4] at hc; simp at hc
        rw [if_neg h4] at hc
        simp only [Outcome.ret.injEq] at hc
        rw [← hc.2.1]
        simp only [set_status]
        rw [List.getElem?_modify, hget]
        have hne : ssp_id.toNat ≠ i.toNat := by
          intro heq
          have := tracked_of_valid h1
          obtain ⟨_, hget'⟩ := (tracked_iff s ssp_id _).1 this
          rw [heq, hget] at hget'
          simp only [Option.some.injEq] at hget'
          rw [← hget'] at h2
          exact hterm h2
        simp [hne]
      · rw [ssp_get_status_known a h1 h2] at hc
        simp only [Outcome.ret.injEq] at hc
        rw [← hc.2.1]; exact hget
    | exit err => rw [hc] at h; simp at h
    | exec => rw [hc] at h; simp at h
    | pending => rw [hc] at h; simp at h
  | send_signal ssp_id signum k =>
    simp only [step] at h
    cases hc : ssp_send_signal s ssp_id signum k with
    | ret v s1 calls =>
      rw [hc] at h
      simp only [Option.some.injEq, Prod.mk.injEq] at h
      rw [← h.1, ssp_send_signal_ret hc]
      exact hget
    | exit err => rw [hc] at h; simp at h
    | exec => rw [hc] at h; simp at h
    | pending => rw [hc] at h; simp at h
  | wait answers =>
    simp only [step] at h
    cases hc : ssp_wait s answers with
    | ret v s1 calls =>
      rw [hc] at h
      simp only [Option.some.injEq, Prod.mk.injEq] at h
      rw [← h.1]
      exact (wait_loop_ok (ssp_wait_ret hc).1).2.1 _ p hget hterm
    | exit err => rw [hc] at h; simp at h
    | exec => rw [hc] at h; simp at h
    | pending => rw [hc] at h; simp at h
  | signal signum answers => exact absurd rfl (hop signum answers)

/-- C5 fails in `handle_signal`. From the state left by `ssp_init`: a
process is created with pid 100, exits with code 0 and is reaped by the
handler, so record 0 is resolved to 0; a second process is created and gets the
pid 100 again; when it exits with code 1 the handler overwrites the resolved
status of record 0 with 1 and leaves record 1 running. -/
theorem handler_overwrites_terminal_status :
    run ssp_init_state
        [Op.create "true" (okFork 100), Op.signal SIGCHLD [reaped 100 0, noMore],
         Op.create "sh" (okFork 100)] =
      some (⟨[⟨0, 0, 100, "true"⟩, ⟨-1, 1, 100, "sh"⟩], 10, [], 10⟩, [0, 1]) ∧
    handle_signal ⟨[⟨0, 0, 100, "true"⟩, ⟨-1, 1, 100, "sh"⟩], 10, [], 10⟩ SIGCHLD
        [reaped 100 0x100, noMore] =
      Outcome.ret () ⟨[⟨1, 0, 100, "true"⟩, ⟨-1, 1, 100, "sh"⟩], 10, [], 10⟩
        [Syscall.waitpid (-1) WNOHANG, Syscall.waitpid (-1) WNOHANG] := by
  decide

/-! ## C8: resolutions per reaped child -/

/-- C8 fails in `handle_signal`. From the state left by `ssp_init`: three
processes are created, the first (pid 100) exits and is reaped, so record 0 is
resolved to 0, and the third gets the pid 100 again. A batch of `K = 2`
terminations (pid 101 with exit code 0, pid 100 with exit code 1) then
resolves one running record (record 1) and appends no orphan, one resolution
for two terminations: the second termination overwrites the resolved record 0
and leaves record 2, whose process it was, running. -/
theorem handler_loses_resolution :
    run ssp_init_state
        [Op.create "true" (okFork 100), Op.signal SIGCHLD [reaped 100 0, noMore],
         Op.create "cat" (okFork 101), Op.create "sh" (okFork 100)] =
      some (⟨[⟨0, 0, 100, "true"⟩, ⟨-1, 1, 101, "cat"⟩, ⟨-1, 2, 100, "sh"⟩], 10, [], 10⟩,
        [0, 1, 2]) ∧
    handle_signal
        ⟨[⟨0, 0, 100, "true"⟩, ⟨-1, 1, 101, "cat"⟩, ⟨-1, 2, 100, "sh"⟩], 10, [], 10⟩
        SIGCHLD [reaped 101 0, reaped 100 0x100, noMore] =
      Outcome.ret ()
        ⟨[⟨1, 0, 100, "true"⟩, ⟨0, 1, 101, "cat"⟩, ⟨-1, 2, 100, "sh"⟩], 10, [], 10⟩
        [Syscall.waitpid (-1) WNOHANG, Syscall.waitpid (-1) WNOHANG,
         Syscall.waitpid (-1) WNOHANG] ∧
    resolutions [⟨0, 0, 100, "true"⟩, ⟨-1, 1, 101, "cat"⟩, ⟨-1, 2, 100, "sh"⟩]
        [⟨1, 0, 100, "true"⟩, ⟨0, 1, 101, "cat"⟩, ⟨-1, 2, 100, "sh"⟩] +
      (([] : List ssp_process).length - ([] : List ssp_process).length) = 1 := by
  decide

/-! ### The handler when no pid of a resolved record comes back -/

theorem resolutions_self (ps : List ssp_process) : resolutions ps ps = 0 := by
  induction ps with
  | nil => rfl
  | cons p ps ih =>
    simp only [resolutions, ih, Nat.add_zero]
    split_ifs with h
    · exact absurd h.1 h.2
    · rfl

theorem resolutions_trans {ps qs rs : List ssp_process} (h1 : Evolves ps qs)
    (h2 : Evolves qs rs) :
    resolutions ps rs = resolutions ps qs + resolutions qs rs := by
  induction h1 generalizing rs with
  | nil => cases h2; rfl
  | @cons p q ps qs hpq _ ih =>
    cases h2 with
    | @cons _ r _ rs hqr hrest =>
      simp only [resolutions, ih hrest]
      have a4 := hpq.2.2.2
      have b4 := hqr.2.2.2
      split_ifs <;> omega

theorem scan_tracked_resolves_one (result : Int) (w : Nat) (ps : List ssp_process)
    (hw : terminated w) (hfresh : unresolved_pid ps result)
    (hfound : (scan_tracked result w ps).1 = true) :
    resolutions ps (scan_tracked result w ps).2 = 1 := by
  induction ps with
  | nil => simp [scan_tracked] at hfound
  | cons p ps ih =>
    unfold scan_tracked at hfound ⊢
    by_cases hp : p.pid = result
    · have hrun := hfresh p (List.mem_cons_self _ _) hp
      have hne := resolve_ne_running w p.status hw
      simp only [if_pos hp, resolutions, resolutions_self]
      rw [if_pos ⟨hrun, hne⟩]
    · simp only [if_neg hp] at hfound ⊢
      have := ih (fun q hq => hfresh q (List.mem_cons_of_mem _ hq)) hfound
      simp only [resolutions, this]
      split_ifs with h
      · exact absurd h.1 h.2
      · rfl

theorem scan_tracked_other_pids (result : Int) (w : Nat) (ps : List ssp_process)
    (q : ssp_process) (hq : q ∈ (scan_tracked result w ps).2) (hne : q.pid ≠ result) :
    q ∈ ps := by
  induction ps with
  | nil => simp [scan_tracked] at hq
  | cons p ps ih =>
    unfold scan_tracked at hq
    by_cases hp : p.pid = result
    · simp only [if_pos hp] at hq
      rcases List.mem_cons.1 hq with rfl | hq
      · exact absurd hp hne
      · exact List.mem_cons_of_mem _ hq
    · simp only [if_neg hp] at hq
      rcases List.mem_cons.1 hq with rfl | hq
      · exact List.mem_cons_self _ _
      · exact List.mem_cons_of_mem _ (ih hq)

/-- One turn of the loop of `handle_signal` for a termination whose pid
belongs to no resolved record makes exactly one resolution. -/
theorem reap_child_resolves_one (s : State) (a : ReapAnswer)
    (hw : terminated a.wait.wstatus)
    (hfresh : unresolved_pid s.ssp_processes a.wait.result)
    (hrealloc : a.realloc = AllocAnswer.block) :
    ∃ s' calls, reap_child s a = Outcome.ret () s' calls ∧
      resolutions s.ssp_processes s'.ssp_processes +
        (s'.ssp_orphans.length - s.ssp_orphans.length) = 1 ∧
      s.ssp_orphans.length ≤ s'.ssp_orphans.length ∧
      ∀ pid, pid ≠ a.wait.result → unresolved_pid s.ssp_processes pid →
        unresolved_pid s'.ssp_processes pid := by
  by_cases hf : (scan_tracked a.wait.result a.wait.wstatus s.ssp_processes).1 = true
  · refine ⟨{ s with ssp_processes :=
        (scan_tracked a.wait.result a.wait.wstatus s.ssp_processes).2 }, [],
      by unfold reap_child; rw [if_pos hf], ?_, Nat.le_refl _, ?_⟩
    · simp only [Nat.sub_self, Nat.add_zero]
      exact scan_tracked_resolves_one _ _ _ hw hfresh hf
    · intro pid hpid hu q hq hqp
      exact hu q (scan_tracked_other_pids _ _ _ q hq (by rw [hqp]; exact hpid)) hqp
  · have h := add_orphan_total s a (fun _ => hrealloc)
    refine ⟨_, _, by unfold reap_child; rw [if_neg hf]; exact h, ?_, ?_, ?_⟩
    · simp [resolutions_self]
    · simp
    · intro pid _ hu
      exact hu

/-- Without recycled pids the handler makes exactly one resolution per
termination: when the `K` pids an invocation of `handle_signal` reaps are
distinct, none of them is the pid of a resolved tracked record, every wait
status reports a termination and the reallocs succeed, the invocation returns
and (tracked records gone from running to terminal) + (orphans appended) is
`K`. -/
theorem drain_resolves_each_once (reaps : List ReapAnswer) (last : ReapAnswer)
    (s : State) (c0 : List Syscall)
    (hpos : ∀ a ∈ reaps, a.wait.result > 0)
    (hterm : ∀ a ∈ reaps, terminated a.wait.wstatus)
    (hrealloc : ∀ a ∈ reaps, a.realloc = AllocAnswer.block)
    (hdistinct : (reaps.map (fun a => a.wait.result)).Nodup)
    (hfresh : ∀ a ∈ reaps, unresolved_pid s.ssp_processes a.wait.result)
    (hlast : last.wait.result ≤ 0)
    (hechild : last.wait.result = -1 → last.wait.errno = ECHILD) :
    ∃ s' calls, drain s c0 (reaps ++ [last]) = Outcome.ret () s' calls ∧
      resolutions s.ssp_processes s'.ssp_processes +
        (s'.ssp_orphans.length - s.ssp_orphans.length) = reaps.length := by
  induction reaps generalizing s c0 with
  | nil =>
    have h1 : ¬ last.wait.result > 0 := by omega
    have h2 : ¬ (last.wait.result = -1 ∧ last.wait.errno ≠ ECHILD) := by
      intro hh; exact hh.2 (hechild hh.1)
    refine ⟨s, c0 ++ [Syscall.waitpid (-1) WNOHANG], ?_, ?_⟩
    · simp only [List.nil_append, drain, if_neg h1, if_neg h2]
    · simp [resolutions_self]
  | cons a more ih =>
    have ha := List.mem_cons_self a more
    obtain ⟨s1, made, hreap, hone, hmono, hkeep⟩ :=
      reap_child_resolves_one s a (hterm a ha) (hfresh a ha) (hrealloc a ha)
    simp only [List.map_cons, List.nodup_cons, List.mem_map, not_exists, not_and] at hdistinct
    have hfresh1 : ∀ b ∈ more, unresolved_pid s1.ssp_processes b.wait.result := by
      intro b hb
      exact hkeep _ (fun heq => hdistinct.1 b hb heq) (hfresh b (List.mem_cons_of_mem _ hb))
    obtain ⟨s2, calls, hdrain, hcount⟩ :=
      ih s1 (c0 ++ [Syscall.waitpid (-1) WNOHANG] ++ made)
        (fun b hb => hpos b (List.mem_cons_of_mem _ hb))
        (fun b hb => hterm b (List.mem_cons_of_mem _ hb))
        (fun b hb => hrealloc b (List.mem_cons_of_mem _ hb))
        hdistinct.2 hfresh1
    refine ⟨s2, calls, ?_, ?_⟩
    · simp only [List.cons_append, drain, if_pos (hpos a ha), hreap]
      exact hdrain
    · obtain ⟨e1, _, _⟩ := reap_child_ret hreap
      obtain ⟨e2, _, o2⟩ := drain_ret hdrain
      have hmono2 := o2.length_le
      rw [resolutions_trans e1 e2, List.length_cons]
      omega

/-- The same for `handle_signal` itself: an invocation for `SIGCHLD` that
drains `K` terminations with distinct pids, none the pid of a resolved tracked
record, returns after exactly `K` resolutions. -/
theorem handle_signal_resolves_each_once (reaps : List ReapAnswer) (last : ReapAnswer)
    (s : State)
    (hpos : ∀ a ∈ reaps, a.wait.result > 0)
    (hterm : ∀ a ∈ reaps, terminated a.wait.wstatus)
    (hrealloc : ∀ a ∈ reaps, a.realloc = AllocAnswer.block)
    (hdistinct : (reaps.map (fun a => a.wait.result)).Nodup)
    (hfresh : ∀ a ∈ reaps, unresolved_pid s.ssp_processes a.wait.result)
    (hlast : last.wait.result ≤ 0)
    (hechild : last.wait.result = -1 → last.wait.errno = ECHILD) :
    ∃ s' calls, handle_signal s SIGCHLD (reaps ++ [last]) = Outcome.ret () s' calls ∧
      resolutions s.ssp_processes s'.ssp_processes +
        (s'.ssp_orphans.length - s.ssp_orphans.length) = reaps.length := by
  unfold handle_signal
  rw [if_pos rfl]
  exact drain_resolves_each_once reaps last s [] hpos hterm hrealloc hdistinct hfresh
    hlast hechild

/-- An invocation that drains two terminations, one of a tracked process
and one of an orphan, makes two resolutions. -/
theorem handle_signal_resolves_each_once_example :
    ∃ s' calls,
      handle_signal ⟨[⟨-1, 0, 100, "sh"⟩], 10, [], 10⟩ SIGCHLD
        ([reaped 100 0, reaped 200 9] ++ [noMore]) = Outcome.ret () s' calls ∧
      resolutions [⟨-1, 0, 100, "sh"⟩] s'.ssp_processes +
        (s'.ssp_orphans.length - ([] : List ssp_process).length) = 2 :=
  handle_signal_resolves_each_once [reaped 100 0, reaped 200 9] noMore
    ⟨[⟨-1, 0, 100, "sh"⟩], 10, [], 10⟩ (by decide) (by decide) (by decide) (by decide)
    (by decide) (by decide) (by decide)

end SSP
